import Mathlib

/-!
Shallow embedding of the terminal group/instance management subsystem
(`TerminalGroupService` in
`src/vs/workbench/contrib/terminal/browser/terminalGroupService.ts`) and the
utility-process lifecycle manager (`UtilityProcess`).

Modelling conventions:
* A terminal instance is identified by its numeric `instanceId` (`Nat`);
  JavaScript object identity on instances is faithfully modelled by id
  equality because ids are unique.
* A `TerminalGroup` object carries a unique `gid` modelling JavaScript
  object identity (`===` on group objects compares `gid`); field mutation
  of a live object does not change its identity.
* Indices that can be `-1` in the source (`activeGroupIndex`,
  `indexOf` results) are `Int`.
* Event emitter `fire` calls are modelled as a list of events returned
  alongside the new state, in firing order.
* A thrown JavaScript error is modelled as an `Option ServiceError`
  component: `some e` means the operation aborted with an exception after
  performing the state mutations already executed.
-/

/-- One terminal group: `gid` models object identity, `terminalInstances`
is the ordered list of member instance ids (`TerminalGroup.terminalInstances`),
`activeInstanceIndexLocal` the group-local active-instance pointer and
`visible` the flag toggled by `setVisible`. -/
structure TerminalGroup where
  gid : Nat
  terminalInstances : List Nat
  activeInstanceIndexLocal : Int
  visible : Bool
deriving DecidableEq, Repr

/-- Events fired by the service's emitters.  Group payloads are projected to
the group's identity (`gid`); instance payloads are instance ids. -/
inductive Ev where
  | groupsChanged
  | instancesChanged
  | activeGroupChanged (g : Option Nat)
  | activeInstanceChanged (i : Option Nat)
deriving DecidableEq, Repr

/-- Errors thrown by the service (modelled, not raised). -/
inductive ServiceError where
  /-- `_getIndexFromId` throw: "Terminal with ID ... does not exist". -/
  | terminalDoesNotExist (terminalId : Nat)
  /-- JavaScript `TypeError` from reading `.instanceId` of `undefined`
  (e.g. `instances[0]` on an empty array). -/
  | undefinedInstanceAccess
deriving DecidableEq, Repr

/-- The mutable state of `TerminalGroupService`. -/
structure GState where
  groups : List TerminalGroup
  activeGroupIndex : Int
  activeInstanceIndex : Int
deriving DecidableEq, Repr

/-- `get instances()`: concatenation of every group's `terminalInstances`. -/
def GState.instances (st : GState) : List Nat :=
  (st.groups.map TerminalGroup.terminalInstances).flatten

/-- `get activeGroup()`: `undefined` when `activeGroupIndex` is out of
range, otherwise `groups[activeGroupIndex]`. -/
def GState.activeGroup (st : GState) : Option TerminalGroup :=
  if st.activeGroupIndex < 0 ∨ (st.groups.length : Int) ≤ st.activeGroupIndex then none
  else st.groups[st.activeGroupIndex.toNat]?

/-- Group-local `get activeInstance()`.  Modelled from the spec: each group
has an "active instance index" pointer into its ordered instance sequence;
out-of-range means no active instance (the concrete `TerminalGroup` class is
not among the sampled sources). -/
def TerminalGroup.activeInstance (g : TerminalGroup) : Option Nat :=
  if g.activeInstanceIndexLocal < 0 ∨
      (g.terminalInstances.length : Int) ≤ g.activeInstanceIndexLocal then none
  else g.terminalInstances[g.activeInstanceIndexLocal.toNat]?

/-- `get activeInstance()`: `this.activeGroup?.activeInstance`. -/
def GState.activeInstance (st : GState) : Option Nat :=
  st.activeGroup.bind TerminalGroup.activeInstance

/-- `Array.prototype.indexOf` on `groups` under object identity (gid):
the first position holding the gid, `-1` when absent. -/
def indexOfGid (groups : List TerminalGroup) (gid : Nat) : Int :=
  match groups with
  | [] => -1
  | g :: rest =>
    if g.gid = gid then 0
    else
      let r := indexOfGid rest gid
      if r = -1 then -1 else r + 1

/-- `this.groups.forEach((g, i) => g.setVisible(i === index))`. -/
def setGroupsVisible (groups : List TerminalGroup) (index : Int) : List TerminalGroup :=
  groups.mapIdx fun i g => { g with visible := decide ((i : Int) = index) }

/-- Replace the group with identity `gid` (every positional occurrence,
unique in well-formed states) by `f` of it. -/
def updateGroupAt (groups : List TerminalGroup) (gid : Nat) (f : TerminalGroup → TerminalGroup) :
    List TerminalGroup :=
  groups.map fun g => if g.gid = gid then f g else g

/-- `setActiveGroupByIndex(index)`: returns without effect when
`index >= groups.length`; otherwise assigns `activeGroupIndex` and, when the
active group object actually changed, updates every group's visibility flag
and fires "active group changed" then "active instance changed". -/
def setActiveGroupByIndex (st : GState) (index : Int) : GState × List Ev :=
  if (st.groups.length : Int) ≤ index then (st, [])
  else
    let oldActiveGroup := st.activeGroup
    let st1 : GState := { st with activeGroupIndex := index }
    if oldActiveGroup.map TerminalGroup.gid ≠ st1.activeGroup.map TerminalGroup.gid then
      let st2 : GState := { st1 with groups := setGroupsVisible st1.groups st1.activeGroupIndex }
      (st2, [Ev.activeGroupChanged (st2.activeGroup.map TerminalGroup.gid),
             Ev.activeInstanceChanged st2.activeInstance])
    else (st1, [])

/-- `_removeGroup(group)`: splice the group out (if present), adjust the
active group index, and fire the documented notifications in source order. -/
def removeGroup (st : GState) (group : TerminalGroup) : GState × List Ev :=
  let activeGroup := st.activeGroup
  let wasActiveGroup := activeGroup.map TerminalGroup.gid = some group.gid
  let index : Int := indexOfGid st.groups group.gid
  let stevs1 : GState × List Ev :=
    if index ≠ -1 then
      ({ st with groups := st.groups.eraseIdx index.toNat }, [Ev.groupsChanged])
    else (st, [])
  let st1 := stevs1.1
  let stevs2 : GState × List Ev :=
    if wasActiveGroup ∧ 0 < st1.groups.length then
      let newIndex : Int := if index < (st1.groups.length : Int) then index
                            else (st1.groups.length : Int) - 1
      setActiveGroupByIndex st1 newIndex
    else if (st1.groups.length : Int) ≤ st1.activeGroupIndex then
      setActiveGroupByIndex st1 ((st1.groups.length : Int) - 1)
    else (st1, [])
  let st2 := stevs2.1
  let evs3 : List Ev :=
    [Ev.instancesChanged] ++
    (if st2.groups.length = 0 then [Ev.activeInstanceChanged none] else []) ++
    [Ev.groupsChanged] ++
    (if wasActiveGroup then [Ev.activeGroupChanged (st2.activeGroup.map TerminalGroup.gid)] else [])
  (st2, stevs1.2 ++ stevs2.2 ++ evs3)

/-- `createGroup(slcOrInstance?)`: appends a fresh group to the tail, fires
"instances changed" when the new group is non-empty, then "groups changed".
The `TerminalGroup` constructor is modelled from the spec: the group wraps
the optional seed instance (or spawns one for a launch config), so it holds
the seed as sole member, or is empty when no argument is given. -/
def createGroup (st : GState) (gid : Nat) (seed : Option Nat) : GState × List Ev :=
  let group : TerminalGroup :=
    { gid := gid
      terminalInstances := seed.toList
      activeInstanceIndexLocal := if seed.isSome then 0 else -1
      visible := false }
  let st1 : GState := { st with groups := st.groups ++ [group] }
  let evs := (if 0 < group.terminalInstances.length then [Ev.instancesChanged] else []) ++
    [Ev.groupsChanged]
  (st1, evs)

/-- The `IInstanceLocation` record produced by `_getInstanceLocation`
(`inst` stands for the source's `instance` field, a reserved word here). -/
structure InstanceLocation where
  group : TerminalGroup
  groupIndex : Nat
  inst : Nat
  instanceIndex : Nat
deriving DecidableEq, Repr

/-- The `while (index >= 0 && currentGroupIndex < this.groups.length)` loop
of `_getInstanceLocation`, consuming each group's instance count. -/
def getInstanceLocationAux : List TerminalGroup → Int → Nat → Option InstanceLocation
  | [], _, _ => none
  | g :: rest, index, currentGroupIndex =>
    if index < 0 then none
    else if index < (g.terminalInstances.length : Int) then
      some { group := g
             groupIndex := currentGroupIndex
             inst := g.terminalInstances.getD index.toNat 0
             instanceIndex := index.toNat }
    else getInstanceLocationAux rest (index - g.terminalInstances.length) (currentGroupIndex + 1)

/-- `_getInstanceLocation(index)`. -/
def getInstanceLocation (st : GState) (index : Int) : Option InstanceLocation :=
  getInstanceLocationAux st.groups index 0

/-- Group-local `setActiveInstanceByIndex`.  Modelled from the spec: the
service "delegates local active-instance tracking to the owning group"; the
group updates its pointer and notifies its active-instance listeners (which
the service forwards) when the active instance changed. -/
def groupSetActiveInstanceByIndex (g : TerminalGroup) (index : Int) : TerminalGroup × List Ev :=
  let g' : TerminalGroup := { g with activeInstanceIndexLocal := index }
  (g', if g.activeInstance ≠ g'.activeInstance
       then [Ev.activeInstanceChanged g'.activeInstance] else [])

/-- Apply the group-local active-instance update to the group with identity
`gid` inside the service state. -/
def groupSetActiveInstanceInState (st : GState) (gid : Nat) (index : Int) : GState × List Ev :=
  match st.groups.find? (fun g => g.gid = gid) with
  | none => (st, [])
  | some g =>
    let p := groupSetActiveInstanceByIndex g index
    ({ st with groups := updateGroupAt st.groups gid (fun _ => p.1) }, p.2)

/-- `setActiveInstanceByIndex(index)`: resolve the flat index, return when
unresolved or already active; otherwise assign `activeInstanceIndex` and
`activeGroupIndex`, fire "active group changed" under the source's guard
(`this.activeGroupIndex !== instanceLocation.groupIndex`, evaluated after
the assignment), update visibility, and delegate to the owning group. -/
def setActiveInstanceByIndex (st : GState) (index : Int) : GState × List Ev :=
  let activeInstance := st.activeInstance
  match getInstanceLocation st index with
  | none => (st, [])
  | some loc =>
    let newActiveInstance := loc.group.terminalInstances[loc.instanceIndex]?
    if activeInstance = newActiveInstance then (st, [])
    else
      let st1 : GState := { st with activeInstanceIndex := (loc.instanceIndex : Int),
                                    activeGroupIndex := (loc.groupIndex : Int) }
      let evs1 : List Ev :=
        if st1.activeGroupIndex ≠ (loc.groupIndex : Int)
        then [Ev.activeGroupChanged (st1.activeGroup.map TerminalGroup.gid)] else []
      let st2 : GState := { st1 with groups := setGroupsVisible st1.groups (loc.groupIndex : Int) }
      let p := groupSetActiveInstanceInState st2 loc.group.gid st2.activeInstanceIndex
      (p.1, evs1 ++ p.2)

/-- `_getIndexFromId(terminalId)`: flat index of the instance with the given
id; `none` models the thrown "Terminal with ID ... does not exist" error. -/
def getIndexFromId (st : GState) (terminalId : Nat) : Option Nat :=
  st.instances.findIdx? (fun e => e = terminalId)

/-- `setActiveInstance(instance)`: `setActiveInstanceByIndex(_getIndexFromId(id))`;
the lookup may throw. -/
def setActiveInstance (st : GState) (inst : Nat) : GState × List Ev × Option ServiceError :=
  match getIndexFromId st inst with
  | none => (st, [], some (ServiceError.terminalDoesNotExist inst))
  | some idx =>
    let p := setActiveInstanceByIndex st (idx : Int)
    (p.1, p.2, none)

/-- `getGroupForInstance(instance)`: first group whose `terminalInstances`
contains the instance. -/
def getGroupForInstance (st : GState) (inst : Nat) : Option TerminalGroup :=
  st.groups.find? (fun g => g.terminalInstances.contains inst)

/-- `moveGroup(source, target)`: resolve both instances to groups (no-op if
either fails), then splice the source group out and splice it back in at the
target group's (pre-removal) position. -/
def moveGroup (st : GState) (source target : Nat) : GState × List Ev :=
  match getGroupForInstance st source, getGroupForInstance st target with
  | some sourceGroup, some targetGroup =>
    let sourceGroupIndex := indexOfGid st.groups sourceGroup.gid
    let targetGroupIndex := indexOfGid st.groups targetGroup.gid
    let groups1 := st.groups.eraseIdx sourceGroupIndex.toNat
    let groups2 := List.insertIdx targetGroupIndex.toNat sourceGroup groups1
    ({ st with groups := groups2 }, [Ev.instancesChanged])
  | _, _ => (st, [])

/-- `TerminalGroup.removeInstance` lifted to the service state.  Modelled
from the spec: the instance leaves the group's ordered sequence (the local
active pointer is clamped back into range), and "removing the last Instance
of a Group triggers Group removal", which reaches the service's
`_removeGroup` through the `onDisposed` wiring of `createGroup`. -/
def removeInstanceFromGroup (st : GState) (gid : Nat) (inst : Nat) : GState × List Ev :=
  match st.groups.find? (fun g => g.gid = gid) with
  | none => (st, [])
  | some g =>
    if inst ∈ g.terminalInstances then
      let newInstances := g.terminalInstances.erase inst
      let newLocal : Int :=
        if (newInstances.length : Int) ≤ g.activeInstanceIndexLocal
        then (newInstances.length : Int) - 1 else g.activeInstanceIndexLocal
      let g' : TerminalGroup :=
        { g with terminalInstances := newInstances, activeInstanceIndexLocal := newLocal }
      let st' : GState := { st with groups := updateGroupAt st.groups gid (fun _ => g') }
      if newInstances.length = 0 then removeGroup st' g' else (st', [])
    else (st, [])

/-- `TerminalGroup.addInstance` lifted to the service state.  Modelled from
the spec: the instance is "appended to the destination group". -/
def addInstanceToGroup (st : GState) (gid : Nat) (inst : Nat) : GState × List Ev :=
  let groups' := updateGroupAt st.groups gid
    (fun g => { g with terminalInstances := g.terminalInstances ++ [inst] })
  ({ st with groups := groups' }, [])

/-- One iteration of the `joinInstances` merge loop: skip the candidate
instance, otherwise detach the instance from its old group (a benign no-op
when it resolves to none) and append it to the destination group. -/
def joinMoveStep (candidateGid : Nat) (candidateInstance : Option Nat)
    (acc : GState × List Ev) (i : Nat) : GState × List Ev :=
  if some i = candidateInstance then acc
  else match getGroupForInstance acc.1 i with
    | none => acc
    | some oldGroup =>
      let r1 := removeInstanceFromGroup acc.1 oldGroup.gid i
      let r2 := addInstanceToGroup r1.1 candidateGid i
      (r2.1, acc.2 ++ r1.2 ++ r2.2)

/-- The body of `joinInstances` after candidate selection / group creation:
detach every non-candidate instance from its old group and append it to the
destination, set the active terminal to `instances[0]` (which throws for an
empty array or an unresolvable id, aborting the trailing event fires), then
fire "instances changed" and conditionally "active group changed". -/
def joinInstancesCore (st : GState) (evs0 : List Ev) (candidateGid : Nat)
    (candidateInstance : Option Nat) (instances : List Nat) :
    GState × List Ev × Option ServiceError :=
  let wasActiveGroup := st.activeGroup.map TerminalGroup.gid = some candidateGid
  let moved := instances.foldl (joinMoveStep candidateGid candidateInstance)
    (st, ([] : List Ev))
  match instances with
  | [] => (moved.1, evs0 ++ moved.2, some ServiceError.undefinedInstanceAccess)
  | first :: _ =>
    match setActiveInstance moved.1 first with
    | (st2, evs2, some e) => (st2, evs0 ++ moved.2 ++ evs2, some e)
    | (st2, evs2, none) =>
      let evs3 : List Ev :=
        [Ev.instancesChanged] ++
        (if ¬ wasActiveGroup
         then [Ev.activeGroupChanged (st2.activeGroup.map TerminalGroup.gid)] else [])
      (st2, evs0 ++ moved.2 ++ evs2 ++ evs3, none)

/-- `joinInstances(instances)`: pick as destination the group of the first
listed instance that is the sole member of its group; otherwise create a new
group (`freshGid` names the fresh group object); then run the merge body. -/
def joinInstances (st : GState) (freshGid : Nat) (instances : List Nat) :
    GState × List Ev × Option ServiceError :=
  let cand : Option (Nat × Nat) := instances.findSome? (fun i =>
    match getGroupForInstance st i with
    | some g => if g.terminalInstances.length = 1 then some (i, g.gid) else none
    | none => none)
  match cand with
  | some (candidateInstance, candidateGid) =>
    joinInstancesCore st [] candidateGid (some candidateInstance) instances
  | none =>
    let p := createGroup st freshGid none
    joinInstancesCore p.1 p.2 freshGid none instances

/-- The operations of the create/remove state machine quantified over in the
collection invariant: `createGroup` and the group-removal path (reached via
`onDidDisposeGroup`). -/
inductive GCOp where
  | create (gid : Nat) (seed : Option Nat)
  | removeG (g : TerminalGroup)

/-- Apply one operation (events discarded). -/
def applyOp (st : GState) : GCOp → GState
  | GCOp.create gid seed => (createGroup st gid seed).1
  | GCOp.removeG g => (removeGroup st g).1

/-- The service's initial state: no groups, both indices `-1`. -/
def initialState : GState :=
  { groups := [], activeGroupIndex := -1, activeInstanceIndex := -1 }

/-- Run a sequence of create/remove operations from the initial state. -/
def runOps (ops : List GCOp) : GState :=
  ops.foldl applyOp initialState

/-! ## UtilityProcess (src/unnamed/part_006) -/

/-- The lifecycle state of `UtilityProcess`: whether a process object is
attached (`this.process !== undefined`), the captured pid, and the
`didExit` latch. -/
structure UtilityProcessState where
  process : Bool
  processPid : Option Nat
  didExit : Bool
deriving DecidableEq, Repr

/-- Events fired by `UtilityProcess` emitters (only `onExit` is relevant);
the `pid` payload is `this.processPid!`. -/
inductive UEv where
  | exit (pid : Option Nat) (code : Int)
deriving DecidableEq, Repr

/-- `handleDidExit(code)`: returns if `didExit` is already set, otherwise
sets the latch and fires `onExit` with `{pid, code, signal: 'unknown'}`. -/
def handleDidExit (st : UtilityProcessState) (code : Int) : UtilityProcessState × List UEv :=
  if st.didExit then (st, [])
  else ({ st with didExit := true }, [UEv.exit st.processPid code])

/-- `waitForExit(maxWaitTimeMs)`: the returned pair is the state after the
call and the number of kill requests issued to the attached process.  The
`await Promise.race([Event.toPromise(this.onExit), timeout(maxWaitTimeMs)])`
suspension is modelled by the oracle `exitDuringWait`: `some code` means the
exit event (and hence `handleDidExit`) was delivered during the wait,
`none` means the timeout elapsed first.  The race always completes (the
timeout branch guarantees resolution), so the embedding is a total
function. -/
def waitForExit (st : UtilityProcessState) (exitDuringWait : Option Int) :
    UtilityProcessState × Nat :=
  if st.process = false then (st, 0)
  else if st.didExit then (st, 0)
  else
    let st1 := match exitDuringWait with
      | some code => (handleDidExit st code).1
      | none => st
    if st1.didExit = false then (st1, 1) else (st1, 0)

/-! ## Basic facts used across the development -/

/-- Predicate picking out "active group changed" notifications. -/
def Ev.isActiveGroupChanged : Ev → Bool
  | Ev.activeGroupChanged _ => true
  | _ => false

/-! ## C3: double exit delivery -/

/-- C3 counterexample: on a `UtilityProcess` whose `didExit` latch is already
set, two `handleDidExit` calls fire the external exit event zero times, not
exactly once, so the claim's quantification over every state fails. -/
theorem c3_already_exited_counterexample :
    ((handleDidExit { process := true, processPid := some 7, didExit := true } 1).2 ++
      (handleDidExit
        (handleDidExit { process := true, processPid := some 7, didExit := true } 1).1 2).2).length
      ≠ 1 := by
  decide

/-- C3 (amended): for every `UtilityProcess` state whose `didExit` latch is
not yet set, `handleDidExit c1` followed by `handleDidExit c2` (either
delivery order of the two exit sources yields this shape) fires the external
`onExit` event exactly once, carrying the first call's code; the second call
is a no-op. -/
theorem handleDidExit_twice_fires_once (st : UtilityProcessState) (c1 c2 : Int)
    (h : st.didExit = false) :
    (handleDidExit st c1).2 ++ (handleDidExit (handleDidExit st c1).1 c2).2
      = [UEv.exit st.processPid c1] := by
  simp [handleDidExit, h]

/-- C3 witness: the amended theorem at a concrete not-yet-exited state. -/
theorem handleDidExit_twice_fires_once_witness :
    (handleDidExit { process := true, processPid := some 7, didExit := false } 1).2 ++
      (handleDidExit
        (handleDidExit { process := true, processPid := some 7, didExit := false } 1).1 2).2
      = [UEv.exit (some 7) 1] :=
  handleDidExit_twice_fires_once
    { process := true, processPid := some 7, didExit := false } 1 2 rfl

/-! ## C8: waitForExit -/

/-- C8: `waitForExit` issues no kill and leaves the state unchanged when no
process is attached or the process already exited; otherwise, when the exit
event is not delivered within the wait (timeout first), it issues exactly
one kill request, and when the exit event is delivered it issues none.  The
embedding is a total function, modelling that the race against the timeout
always resolves. -/
theorem waitForExit_spec (st : UtilityProcessState) (exitDuringWait : Option Int) :
    (st.process = false ∨ st.didExit = true → waitForExit st exitDuringWait = (st, 0)) ∧
    (st.process = true → st.didExit = false →
      (waitForExit st exitDuringWait).2 = if exitDuringWait.isSome then 0 else 1) := by
  constructor
  · rintro (h | h) <;> simp [waitForExit, h]
  · intro hp hd
    cases exitDuringWait <;> simp [waitForExit, hp, hd, handleDidExit]

/-- C8 witness: a live process with no exit within the wait gets exactly one
kill request; an exited one gets none. -/
theorem waitForExit_spec_witness :
    (waitForExit { process := true, processPid := some 7, didExit := false } none).2 = 1 ∧
    waitForExit { process := true, processPid := some 7, didExit := true } none
      = ({ process := true, processPid := some 7, didExit := true }, 0) := by
  refine ⟨?_, ?_⟩
  · have h := (waitForExit_spec { process := true, processPid := some 7, didExit := false } none).2
      rfl rfl
    simpa using h
  · exact (waitForExit_spec { process := true, processPid := some 7, didExit := true } none).1
      (Or.inr rfl)

/-! ## C10: joinInstances on the empty list -/

/-- C10: `joinInstances([])` finds no candidate group, creates and appends a
new empty group, then aborts with a runtime error (reading `.instanceId` of
`instances[0]`, which is `undefined`) before firing the trailing
notifications, leaving the empty group in the collection. -/
theorem joinInstances_empty_errors (st : GState) (freshGid : Nat) :
    joinInstances st freshGid [] =
      ({ st with groups := st.groups ++
          [{ gid := freshGid, terminalInstances := [],
             activeInstanceIndexLocal := -1, visible := false }] },
       [Ev.groupsChanged], some ServiceError.undefinedInstanceAccess) := by
  simp [joinInstances, joinInstancesCore, createGroup]

/-! ## C9: setActiveInstanceByIndex never fires "active group changed" -/

/-- C9: for every state and flat index, `setActiveInstanceByIndex` fires no
"active group changed" notification: the guard compares `activeGroupIndex`
with the resolved group index only after assigning exactly that index, so it
is always false. -/
theorem setActiveInstanceByIndex_no_group_event (st : GState) (index : Int) :
    (setActiveInstanceByIndex st index).2.filter Ev.isActiveGroupChanged = [] := by
  unfold setActiveInstanceByIndex
  cases hloc : getInstanceLocation st index with
  | none => simp
  | some loc =>
    simp only []
    split
    · simp
    · unfold groupSetActiveInstanceInState
      simp only []
      cases hfind : (setGroupsVisible st.groups (loc.groupIndex : Int)).find?
          (fun g => g.gid = loc.group.gid) with
      | none => simp [hfind]
      | some g =>
        simp only [hfind]
        unfold groupSetActiveInstanceByIndex
        simp only [List.filter_append]
        split <;> split <;> simp_all [Ev.isActiveGroupChanged]

/-! ## Helper lemmas about setActiveGroupByIndex and visibility -/

lemma length_setGroupsVisible (l : List TerminalGroup) (i : Int) :
    (setGroupsVisible l i).length = l.length := by
  simp [setGroupsVisible]

lemma getElem?_setGroupsVisible (l : List TerminalGroup) (i : Int) (k : Nat) :
    (setGroupsVisible l i)[k]? =
      l[k]?.map (fun g => { g with visible := decide ((k : Int) = i) }) := by
  simp [setGroupsVisible, List.getElem?_mapIdx]

/-- Updating visibility flags does not change which group (by identity) is
active. -/
lemma activeGroup_gid_setGroupsVisible (st : GState) (j i : Int) :
    (({ st with
        groups := setGroupsVisible st.groups j,
        activeGroupIndex := i } : GState).activeGroup).map TerminalGroup.gid =
    (({ st with activeGroupIndex := i } : GState).activeGroup).map TerminalGroup.gid := by
  unfold GState.activeGroup
  simp only [length_setGroupsVisible]
  split
  · rfl
  · rw [getElem?_setGroupsVisible]
    cases st.groups[i.toNat]? <;> simp

lemma GState.eta_activeGroupIndex (st : GState) :
    ({ st with activeGroupIndex := st.activeGroupIndex } : GState) = st := rfl

lemma setActiveGroupByIndex_of_le (st : GState) (i : Int)
    (h : (st.groups.length : Int) ≤ i) : setActiveGroupByIndex st i = (st, []) := by
  unfold setActiveGroupByIndex
  simp [h]

lemma setActiveGroupByIndex_idx (st : GState) (i : Int)
    (h : i < (st.groups.length : Int)) :
    (setActiveGroupByIndex st i).1.activeGroupIndex = i := by
  unfold setActiveGroupByIndex
  simp only [not_le.mpr h, if_false]
  split <;> rfl

lemma setActiveGroupByIndex_length (st : GState) (i : Int) :
    (setActiveGroupByIndex st i).1.groups.length = st.groups.length := by
  unfold setActiveGroupByIndex
  split
  · rfl
  · dsimp only
    split
    · exact length_setGroupsVisible _ _
    · rfl

lemma setActiveGroupByIndex_gid (st : GState) (i : Int)
    (h : i < (st.groups.length : Int)) :
    (setActiveGroupByIndex st i).1.activeGroup.map TerminalGroup.gid =
      (({ st with activeGroupIndex := i } : GState).activeGroup).map TerminalGroup.gid := by
  unfold setActiveGroupByIndex
  simp only [not_le.mpr h, if_false]
  split
  · exact activeGroup_gid_setGroupsVisible st i i
  · rfl

/-! ## C7: setActiveGroupByIndex bounds -/

/-- C7 counterexample: with one group and that group active,
`setActiveGroupByIndex(-1)` is not a no-op — the guard only rejects
`index >= groups.length`, so a negative index is accepted, `activeGroupIndex`
becomes `-1` and both change events fire. -/
theorem setActiveGroupByIndex_neg_counterexample :
    setActiveGroupByIndex
      { groups := [{ gid := 0, terminalInstances := [10],
                     activeInstanceIndexLocal := 0, visible := true }],
        activeGroupIndex := 0, activeInstanceIndex := 0 } (-1)
      ≠ ({ groups := [{ gid := 0, terminalInstances := [10],
                        activeInstanceIndexLocal := 0, visible := true }],
           activeGroupIndex := 0, activeInstanceIndex := 0 }, []) := by
  decide

/-- C7 (amended): `setActiveGroupByIndex(i)` is a no-op exactly for
`i >= groups.length`; any smaller `i` — including negative `i`, which the
guard does not reject — is assigned to `activeGroupIndex`, the change events
fire iff the active group (by identity) actually changed, and a redundant
call with the current index changes nothing and fires nothing. -/
theorem setActiveGroupByIndex_spec (st : GState) (i : Int) :
    ((st.groups.length : Int) ≤ i → setActiveGroupByIndex st i = (st, [])) ∧
    (i < (st.groups.length : Int) →
      (setActiveGroupByIndex st i).1.activeGroupIndex = i ∧
      ((setActiveGroupByIndex st i).2 = [] ↔
        (setActiveGroupByIndex st i).1.activeGroup.map TerminalGroup.gid
          = st.activeGroup.map TerminalGroup.gid) ∧
      (i = st.activeGroupIndex → setActiveGroupByIndex st i = (st, []))) := by
  refine ⟨fun h => setActiveGroupByIndex_of_le st i h, fun h => ⟨setActiveGroupByIndex_idx st i h, ?_, ?_⟩⟩
  · rw [setActiveGroupByIndex_gid st i h]
    unfold setActiveGroupByIndex
    simp only [not_le.mpr h, if_false]
    split
    · rename_i hne
      constructor
      · intro habs; exact absurd habs (by simp)
      · intro heq; exact absurd heq.symm hne
    · rename_i hne
      rw [not_ne_iff] at hne
      simp [hne.symm]
  · intro heq
    subst heq
    unfold setActiveGroupByIndex
    simp only [not_le.mpr h, if_false, GState.eta_activeGroupIndex]
    simp

/-- C7 witness: an out-of-range call is a no-op, an in-range call assigns
the index. -/
theorem setActiveGroupByIndex_spec_witness :
    setActiveGroupByIndex
      { groups := [{ gid := 0, terminalInstances := [10],
                     activeInstanceIndexLocal := 0, visible := true }],
        activeGroupIndex := 0, activeInstanceIndex := 0 } 5
      = ({ groups := [{ gid := 0, terminalInstances := [10],
                        activeInstanceIndexLocal := 0, visible := true }],
           activeGroupIndex := 0, activeInstanceIndex := 0 }, []) :=
  (setActiveGroupByIndex_spec
    { groups := [{ gid := 0, terminalInstances := [10],
                   activeInstanceIndexLocal := 0, visible := true }],
      activeGroupIndex := 0, activeInstanceIndex := 0 } 5).1 (by decide)

/-! ## C1: the active-group-index invariant of the create/remove machine -/

/-- The invariant that actually holds of the create/remove state machine:
`activeGroupIndex` is `-1` or a valid index, and it is `-1` whenever the
collection is empty.  (The spec's "iff" direction fails: `createGroup` never
assigns `activeGroupIndex`.) -/
def GInv (st : GState) : Prop :=
  (st.groups = [] → st.activeGroupIndex = -1) ∧
  (st.activeGroupIndex = -1 ∨
    (0 ≤ st.activeGroupIndex ∧ st.activeGroupIndex < (st.groups.length : Int)))

lemma indexOfGid_cases (l : List TerminalGroup) (gid : Nat) :
    indexOfGid l gid = -1 ∨
      (0 ≤ indexOfGid l gid ∧ indexOfGid l gid < (l.length : Int)) := by
  induction l with
  | nil => left; rfl
  | cons g rest ih =>
    unfold indexOfGid
    dsimp only
    by_cases hx : g.gid = gid
    · rw [if_pos hx]
      right
      refine ⟨le_refl 0, ?_⟩
      rw [List.length_cons]
      push_cast
      omega
    · rw [if_neg hx]
      rcases ih with h | ⟨h0, h1⟩
      · rw [h, if_pos rfl]
        left
        rfl
      · rw [if_neg (by omega)]
        right
        rw [List.length_cons]
        push_cast
        omega

/-- The element at a position with a nodup gid map is found by `indexOf` at
exactly that position. -/
lemma indexOfGid_of_getElem? (l : List TerminalGroup) (k : Nat) (g : TerminalGroup)
    (hn : (l.map TerminalGroup.gid).Nodup) (hk : l[k]? = some g) :
    indexOfGid l g.gid = (k : Int) := by
  induction l generalizing k with
  | nil => simp at hk
  | cons x rest ih =>
    cases k with
    | zero =>
      simp only [List.getElem?_cons_zero, Option.some.injEq] at hk
      subst hk
      unfold indexOfGid
      simp
    | succ k =>
      simp only [List.getElem?_cons_succ] at hk
      simp only [List.map_cons, List.nodup_cons] at hn
      have hmem : g ∈ rest := List.getElem?_mem hk
      have hne : ¬ x.gid = g.gid := by
        intro hcontra
        exact hn.1 (hcontra ▸ List.mem_map_of_mem TerminalGroup.gid hmem)
      have hr := ih k hn.2 hk
      unfold indexOfGid
      dsimp only
      rw [if_neg hne, hr, if_neg (by omega)]
      push_cast
      omega

/-- `indexOf` finds an element with the searched gid. -/
lemma getElem?_indexOfGid (l : List TerminalGroup) (gid : Nat)
    (h : 0 ≤ indexOfGid l gid) :
    ∃ g, l[(indexOfGid l gid).toNat]? = some g ∧ g.gid = gid := by
  induction l with
  | nil => simp [indexOfGid] at h
  | cons x rest ih =>
    unfold indexOfGid at h ⊢
    dsimp only at h ⊢
    by_cases hx : x.gid = gid
    · rw [if_pos hx]
      exact ⟨x, by simp, hx⟩
    · rw [if_neg hx] at h ⊢
      rcases indexOfGid_cases rest gid with hr | ⟨hr0, hr1⟩
      · rw [hr] at h
        simp at h
      · rw [if_neg (by omega)] at h ⊢
        obtain ⟨g, hg1, hg2⟩ := ih hr0
        refine ⟨g, ?_, hg2⟩
        have : (indexOfGid rest gid + 1).toNat = (indexOfGid rest gid).toNat + 1 := by omega
        rw [this, List.getElem?_cons_succ]
        exact hg1

lemma GInv_createGroup (st : GState) (gid : Nat) (seed : Option Nat) (h : GInv st) :
    GInv (createGroup st gid seed).1 := by
  obtain ⟨h1, h2⟩ := h
  unfold createGroup
  refine ⟨fun hemp => ?_, ?_⟩
  · simp at hemp
  · rcases h2 with h | ⟨ha, hb⟩
    · left; exact h
    · right
      refine ⟨ha, ?_⟩
      simp only [List.length_append, List.length_cons, List.length_nil]
      push_cast
      omega

lemma GInv_setActiveGroupByIndex (st : GState) (i : Int)
    (hin : i = -1 ∨ (0 ≤ i ∧ i < (st.groups.length : Int)))
    (hne : st.groups = [] → i = -1) :
    GInv (setActiveGroupByIndex st i).1 := by
  have hlen := setActiveGroupByIndex_length st i
  have hlt : i < (st.groups.length : Int) := by
    rcases hin with h | ⟨h0, h1⟩
    · have : (0 : Int) ≤ (st.groups.length : Int) := Int.ofNat_nonneg _
      omega
    · exact h1
  have hidx := setActiveGroupByIndex_idx st i hlt
  constructor
  · intro hemp
    have : st.groups = [] := by
      have := hlen
      rw [hemp] at this
      exact List.length_eq_zero.mp this.symm
    rw [hidx]
    exact hne this
  · rw [hidx, hlen]
    exact hin

@[simp] lemma GState.groups_mk (gs : List TerminalGroup) (a b : Int) :
    ({ groups := gs, activeGroupIndex := a, activeInstanceIndex := b } : GState).groups = gs := rfl

@[simp] lemma GState.activeGroupIndex_mk (gs : List TerminalGroup) (a b : Int) :
    ({ groups := gs, activeGroupIndex := a, activeInstanceIndex := b } : GState).activeGroupIndex
      = a := rfl

@[simp] lemma GState.activeInstanceIndex_mk (gs : List TerminalGroup) (a b : Int) :
    ({ groups := gs, activeGroupIndex := a, activeInstanceIndex := b } : GState).activeInstanceIndex
      = b := rfl

@[simp] lemma TerminalGroup.gid_mk (a : Nat) (b : List Nat) (c : Int) (d : Bool) :
    ({ gid := a, terminalInstances := b, activeInstanceIndexLocal := c,
       visible := d } : TerminalGroup).gid = a := rfl

@[simp] lemma TerminalGroup.terminalInstances_mk (a : Nat) (b : List Nat) (c : Int) (d : Bool) :
    ({ gid := a, terminalInstances := b, activeInstanceIndexLocal := c,
       visible := d } : TerminalGroup).terminalInstances = b := rfl

@[simp] lemma TerminalGroup.activeInstanceIndexLocal_mk (a : Nat) (b : List Nat) (c : Int) (d : Bool) :
    ({ gid := a, terminalInstances := b, activeInstanceIndexLocal := c,
       visible := d } : TerminalGroup).activeInstanceIndexLocal = c := rfl

lemma GInv_removeGroup (st : GState) (g : TerminalGroup) (h : GInv st) :
    GInv (removeGroup st g).1 := by
  obtain ⟨h1, h2⟩ := h
  have hlen0 : (0 : Int) ≤ (st.groups.length : Int) := Int.ofNat_nonneg _
  unfold removeGroup
  dsimp only
  by_cases hf : indexOfGid st.groups g.gid = -1
  · simp only [hf, ne_eq, not_true_eq_false, if_false]
    split
    · rename_i hcond
      apply GInv_setActiveGroupByIndex
      · left
        rw [if_pos]
        omega
      · intro hemp
        rw [hemp] at hcond
        simp at hcond
    · split
      · rename_i hc2
        exfalso
        rcases h2 with hm | ⟨ha, hb⟩
        · rw [hm] at hc2
          omega
        · omega
      · exact ⟨h1, h2⟩
  · rcases indexOfGid_cases st.groups g.gid with hx | ⟨hi0, hilt⟩
    · exact absurd hx hf
    simp only [hf, ne_eq, not_false_eq_true, if_true,
      GState.groups_mk, GState.activeGroupIndex_mk, GState.activeInstanceIndex_mk]
    have htlt : (indexOfGid st.groups g.gid).toNat < st.groups.length := by omega
    have hlen1 : (st.groups.eraseIdx (indexOfGid st.groups g.gid).toNat).length
        = st.groups.length - 1 := List.length_eraseIdx_of_lt htlt
    split
    · rename_i hcond
      have hp : 0 < (st.groups.eraseIdx (indexOfGid st.groups g.gid).toNat).length :=
        hcond.2
      apply GInv_setActiveGroupByIndex
      · simp only [GState.groups_mk]
        right
        constructor
        · split <;> omega
        · split
          · rename_i hxx
            exact hxx
          · omega
      · intro hemp
        simp only [GState.groups_mk] at hemp
        rw [hemp] at hp
        simp at hp
    · split
      · rename_i hc2
        apply GInv_setActiveGroupByIndex
        · simp only [GState.groups_mk]
          rcases Nat.eq_zero_or_pos
            (st.groups.eraseIdx (indexOfGid st.groups g.gid).toNat).length with hz | hp
          · left
            rw [hz]
            decide
          · right
            constructor
            · omega
            · omega
        · intro hemp
          simp only [GState.groups_mk] at hemp
          rw [hemp]
          decide
      · rename_i hc1 hc2
        constructor
        · intro hemp
          simp only [GState.groups_mk] at hemp
          rw [hemp] at hc2
          simp only [List.length_nil, Nat.cast_zero] at hc2
          rcases h2 with hm | ⟨ha, hb⟩
          · exact hm
          · omega
        · rcases h2 with hm | ⟨ha, hb⟩
          · left
            exact hm
          · right
            refine ⟨ha, ?_⟩
            simp only [GState.groups_mk, GState.activeGroupIndex_mk] at hc2 ⊢
            rw [hlen1] at hc2 ⊢
            omega

lemma GInv_initialState : GInv initialState := by
  constructor
  · intro _; rfl
  · left; rfl

lemma GInv_foldl (ops : List GCOp) (st : GState) (h : GInv st) :
    GInv (ops.foldl applyOp st) := by
  induction ops generalizing st with
  | nil => exact h
  | cons op rest ih =>
    rw [List.foldl_cons]
    apply ih
    cases op with
    | create gid seed => exact GInv_createGroup st gid seed h
    | removeG g => exact GInv_removeGroup st g h

/-- C1 counterexample: one `createGroup` from the empty collection leaves
`activeGroupIndex = -1` while `groups` is non-empty — `createGroup` never
assigns the active index, so "`-1` iff empty" fails. -/
theorem create_active_iff_counterexample :
    ¬ (((runOps [GCOp.create 0 none]).activeGroupIndex = -1) ↔
        (runOps [GCOp.create 0 none]).groups = []) := by
  decide

/-- C1 (amended): over every sequence of `createGroup` and group-removal
operations from the empty collection, `activeGroupIndex` is always `-1` or a
valid index into `groups`, and it is `-1` whenever `groups` is empty; the
converse implication of the original claim fails (see the counterexample)
because `createGroup` does not update `activeGroupIndex`. -/
theorem runOps_activeGroupIndex_invariant (ops : List GCOp) : GInv (runOps ops) :=
  GInv_foldl ops initialState GInv_initialState

/-! ## C2: flat-index resolution -/

lemma getInstanceLocationAux_some (groups : List TerminalGroup) :
    ∀ (i : Int) (k : Nat) (loc : InstanceLocation),
      getInstanceLocationAux groups i k = some loc →
      ∃ p : Nat, loc.groupIndex = k + p ∧ p < groups.length ∧
        groups[p]? = some loc.group ∧
        loc.instanceIndex < loc.group.terminalInstances.length ∧
        loc.group.terminalInstances[loc.instanceIndex]? = some loc.inst ∧
        ((((groups.take p).map (fun g => g.terminalInstances.length)).sum
          + loc.instanceIndex : Nat) : Int) = i ∧
        ((groups.map TerminalGroup.terminalInstances).flatten)[i.toNat]? = some loc.inst := by
  induction groups with
  | nil =>
    intro i k loc h
    simp [getInstanceLocationAux] at h
  | cons g rest ih =>
    intro i k loc h
    unfold getInstanceLocationAux at h
    split at h
    · exact absurd h (by simp)
    · rename_i hneg
      rw [not_lt] at hneg
      split at h
      · rename_i hlt
        cases h
        refine ⟨0, by simp, by simp, ?_, ?_, ?_, ?_, ?_⟩
        · show (g :: rest)[0]? = some g
          simp
        · show i.toNat < g.terminalInstances.length
          omega
        · show g.terminalInstances[i.toNat]? = some (g.terminalInstances.getD i.toNat 0)
          have hb : i.toNat < g.terminalInstances.length := by omega
          rw [List.getD_eq_getElem?_getD, List.getElem?_eq_getElem hb]
          rfl
        · show ((0 + i.toNat : Nat) : Int) = i
          omega
        · show ((g.terminalInstances :: rest.map TerminalGroup.terminalInstances).flatten)[i.toNat]?
            = some (g.terminalInstances.getD i.toNat 0)
          have hb : i.toNat < g.terminalInstances.length := by omega
          rw [List.flatten_cons, List.getElem?_append_left hb,
            List.getD_eq_getElem?_getD, List.getElem?_eq_getElem hb]
          rfl
      · rename_i hge
        rw [not_lt] at hge
        obtain ⟨p, hp1, hp2, hp3, hp4, hp5, hp6, hp7⟩ :=
          ih (i - g.terminalInstances.length) (k + 1) loc h
        refine ⟨p + 1, ?_, ?_, ?_, hp4, hp5, ?_, ?_⟩
        · rw [hp1]; omega
        · simpa using Nat.succ_lt_succ hp2
        · simpa using hp3
        · rw [List.take_succ_cons, List.map_cons, List.sum_cons]
          push_cast at hp6 ⊢
          omega
        · rw [List.map_cons, List.flatten_cons]
          have hlelen : g.terminalInstances.length ≤ i.toNat := by omega
          rw [List.getElem?_append_right hlelen]
          have : i.toNat - g.terminalInstances.length
              = (i - g.terminalInstances.length).toNat := by omega
          rw [this]
          exact hp7

lemma getInstanceLocationAux_none (groups : List TerminalGroup) :
    ∀ (i : Int) (k : Nat),
      (i < 0 ∨ ((((groups.map (fun g => g.terminalInstances.length)).sum : Nat)) : Int) ≤ i) →
      getInstanceLocationAux groups i k = none := by
  induction groups with
  | nil =>
    intro i k _
    rfl
  | cons g rest ih =>
    intro i k h
    unfold getInstanceLocationAux
    rcases h with hneg | hge
    · rw [if_pos hneg]
    · rw [List.map_cons, List.sum_cons, Nat.cast_add] at hge
      have h0 : ¬ i < 0 := by omega
      rw [if_neg h0, if_neg ?hgeb]
      case hgeb => omega
      apply ih
      right
      omega

lemma instances_length (st : GState) :
    st.instances.length = (st.groups.map (fun g => g.terminalInstances.length)).sum := by
  rw [GState.instances, List.length_flatten, List.map_map]
  rfl

/-- C2: when `_getInstanceLocation(i)` resolves flat index `i` to a group at
position `p` with local index `j`, then the instance counts of the groups
before `p` plus `j` recompute `i` (the two resolutions are mutual inverses),
the resolved group is `groups[p]` and `j` is in its range; and a negative
`i` or an `i` at or past the total instance count resolves to "not found"
(`undefined`), not an error. -/
theorem getInstanceLocation_flat_inverse (st : GState) (i : Int) :
    (∀ loc, getInstanceLocation st i = some loc →
      loc.groupIndex < st.groups.length ∧
      st.groups[loc.groupIndex]? = some loc.group ∧
      loc.instanceIndex < loc.group.terminalInstances.length ∧
      loc.group.terminalInstances[loc.instanceIndex]? = some loc.inst ∧
      ((((st.groups.take loc.groupIndex).map
          (fun g => g.terminalInstances.length)).sum + loc.instanceIndex : Nat) : Int) = i) ∧
    (i < 0 ∨ (st.instances.length : Int) ≤ i → getInstanceLocation st i = none) := by
  constructor
  · intro loc h
    obtain ⟨p, hp1, hp2, hp3, hp4, hp5, hp6, -⟩ :=
      getInstanceLocationAux_some st.groups i 0 loc h
    have hp0 : loc.groupIndex = p := by omega
    subst hp0
    exact ⟨hp2, hp3, hp4, hp5, hp6⟩
  · intro h
    apply getInstanceLocationAux_none
    rw [instances_length] at h
    exact h

/-- C2 witness: the inverse law and the out-of-range behaviour at a concrete
three-group state. -/
theorem getInstanceLocation_flat_inverse_witness :
    ((((({ groups := [{ gid := 0, terminalInstances := [10, 11],
                        activeInstanceIndexLocal := 0, visible := true },
                      { gid := 1, terminalInstances := [20],
                        activeInstanceIndexLocal := 0, visible := false }],
           activeGroupIndex := 0, activeInstanceIndex := 0 } : GState).groups.take 1).map
        (fun g => g.terminalInstances.length)).sum + 0 : Nat) : Int) = 2 ∧
    getInstanceLocation
      { groups := [{ gid := 0, terminalInstances := [10, 11],
                     activeInstanceIndexLocal := 0, visible := true },
                   { gid := 1, terminalInstances := [20],
                     activeInstanceIndexLocal := 0, visible := false }],
        activeGroupIndex := 0, activeInstanceIndex := 0 } 3 = none := by
  constructor
  · have h := (getInstanceLocation_flat_inverse
      { groups := [{ gid := 0, terminalInstances := [10, 11],
                     activeInstanceIndexLocal := 0, visible := true },
                   { gid := 1, terminalInstances := [20],
                     activeInstanceIndexLocal := 0, visible := false }],
        activeGroupIndex := 0, activeInstanceIndex := 0 } 2).1
      { group := { gid := 1, terminalInstances := [20],
                   activeInstanceIndexLocal := 0, visible := false },
        groupIndex := 1, inst := 20, instanceIndex := 0 } (by decide)
    exact h.2.2.2.2
  · exact (getInstanceLocation_flat_inverse
      { groups := [{ gid := 0, terminalInstances := [10, 11],
                     activeInstanceIndexLocal := 0, visible := true },
                   { gid := 1, terminalInstances := [20],
                     activeInstanceIndexLocal := 0, visible := false }],
        activeGroupIndex := 0, activeInstanceIndex := 0 } 3).2 (by right; decide)

/-! ## C5: removing the active group -/

lemma activeGroup_eq_some_of (st : GState) (g : TerminalGroup)
    (h0 : 0 ≤ st.activeGroupIndex)
    (h1 : st.activeGroupIndex < (st.groups.length : Int))
    (hg : st.groups[st.activeGroupIndex.toNat]? = some g) :
    st.activeGroup = some g := by
  unfold GState.activeGroup
  rw [if_neg (by omega)]
  exact hg

/-- C5: removing the currently-active group: when other groups remain, the
new active index is the removed group's old position, clamped to the new
last index when the removed group was last, and is always in range; when no
group remains, `activeGroupIndex` resets to `-1` and the null
active-instance notification fires. -/
theorem removeGroup_active_reindex (st : GState) (g : TerminalGroup)
    (hn : (st.groups.map TerminalGroup.gid).Nodup)
    (h0 : 0 ≤ st.activeGroupIndex)
    (h1 : st.activeGroupIndex < (st.groups.length : Int))
    (hg : st.groups[st.activeGroupIndex.toNat]? = some g) :
    (1 < st.groups.length →
      (removeGroup st g).1.groups.length = st.groups.length - 1 ∧
      (removeGroup st g).1.activeGroupIndex =
        (if st.activeGroupIndex < (st.groups.length : Int) - 1 then st.activeGroupIndex
         else (st.groups.length : Int) - 2) ∧
      0 ≤ (removeGroup st g).1.activeGroupIndex ∧
      (removeGroup st g).1.activeGroupIndex < ((removeGroup st g).1.groups.length : Int)) ∧
    (st.groups.length = 1 →
      (removeGroup st g).1.groups = [] ∧
      (removeGroup st g).1.activeGroupIndex = -1 ∧
      Ev.activeInstanceChanged none ∈ (removeGroup st g).2) := by
  have hag : st.activeGroup = some g := activeGroup_eq_some_of st g h0 h1 hg
  have hidx : indexOfGid st.groups g.gid = st.activeGroupIndex := by
    have h := indexOfGid_of_getElem? st.groups st.activeGroupIndex.toNat g hn hg
    rw [h]
    omega
  have hterase : (st.groups.eraseIdx st.activeGroupIndex.toNat).length
      = st.groups.length - 1 :=
    List.length_eraseIdx_of_lt (by omega)
  constructor
  · intro hlen
    unfold removeGroup
    dsimp only
    rw [hag, hidx]
    rw [if_pos (by omega : st.activeGroupIndex ≠ -1)]
    simp only [GState.groups_mk, GState.activeGroupIndex_mk, Option.map_some']
    rw [if_pos ⟨trivial, by omega⟩]
    have hne : (if st.activeGroupIndex
          < ((st.groups.eraseIdx st.activeGroupIndex.toNat).length : Int)
        then st.activeGroupIndex
        else ((st.groups.eraseIdx st.activeGroupIndex.toNat).length : Int) - 1)
        < (((st.groups.eraseIdx st.activeGroupIndex.toNat).length : Int)) := by
      split <;> omega
    refine ⟨?_, ?_, ?_, ?_⟩
    · rw [setActiveGroupByIndex_length]
      simpa using hterase
    · rw [setActiveGroupByIndex_idx _ _ (by simpa using hne)]
      rw [hterase]
      split <;> split <;> omega
    · rw [setActiveGroupByIndex_idx _ _ (by simpa using hne)]
      split <;> omega
    · rw [setActiveGroupByIndex_idx _ _ (by simpa using hne),
        setActiveGroupByIndex_length]
      simp only [GState.groups_mk]
      rw [hterase]
      split <;> omega
  · intro hlen
    unfold removeGroup
    dsimp only
    rw [hag, hidx]
    rw [if_pos (by omega : st.activeGroupIndex ≠ -1)]
    simp only [GState.groups_mk, GState.activeGroupIndex_mk, Option.map_some']
    have hz : (st.groups.eraseIdx st.activeGroupIndex.toNat).length = 0 := by omega
    rw [if_neg (by simp; omega : ¬ (True ∧
      0 < (st.groups.eraseIdx st.activeGroupIndex.toNat).length))]
    rw [if_pos (by omega : ((st.groups.eraseIdx st.activeGroupIndex.toNat).length : Int)
      ≤ st.activeGroupIndex)]
    have hgz : st.groups.eraseIdx st.activeGroupIndex.toNat = [] :=
      List.length_eq_zero.mp hz
    refine ⟨?_, ?_, ?_⟩
    · rw [← List.length_eq_zero, setActiveGroupByIndex_length]
      simpa using hz
    · rw [setActiveGroupByIndex_idx]
      · omega
      · simp only [GState.groups_mk]
        omega
    · simp only [List.mem_append]
      right
      left
      simp only [setActiveGroupByIndex_length, GState.groups_mk, hz, if_pos]
      simp

/-- C5 witness: removing the active last group of two re-targets the new
last index. -/
theorem removeGroup_active_reindex_witness :
    (removeGroup
      { groups := [{ gid := 0, terminalInstances := [10],
                     activeInstanceIndexLocal := 0, visible := false },
                   { gid := 1, terminalInstances := [20],
                     activeInstanceIndexLocal := 0, visible := true }],
        activeGroupIndex := 1, activeInstanceIndex := 0 }
      { gid := 1, terminalInstances := [20],
        activeInstanceIndexLocal := 0, visible := true }).1.activeGroupIndex = 0 := by
  have h := (removeGroup_active_reindex
    { groups := [{ gid := 0, terminalInstances := [10],
                   activeInstanceIndexLocal := 0, visible := false },
                 { gid := 1, terminalInstances := [20],
                   activeInstanceIndexLocal := 0, visible := true }],
      activeGroupIndex := 1, activeInstanceIndex := 0 }
    { gid := 1, terminalInstances := [20],
      activeInstanceIndexLocal := 0, visible := true }
    (by decide) (by decide) (by decide) (by decide)).1 (by decide)
  rw [h.2.1]
  decide

/-! ## C6: moveGroup splice semantics -/

lemma indexOfGid_insertIdx (x : TerminalGroup) :
    ∀ (k : Nat) (l : List TerminalGroup), x.gid ∉ l.map TerminalGroup.gid → k ≤ l.length →
      indexOfGid (List.insertIdx k x l) x.gid = (k : Int) := by
  intro k
  induction k with
  | zero =>
    intro l _ _
    rw [List.insertIdx_zero]
    unfold indexOfGid
    simp
  | succ k ih =>
    intro l hnot hk
    cases l with
    | nil => simp at hk
    | cons y rest =>
      rw [List.insertIdx_succ_cons]
      unfold indexOfGid
      dsimp only
      simp only [List.map_cons, List.mem_cons] at hnot
      push_neg at hnot
      rw [if_neg (fun hc => hnot.1 hc.symm)]
      have hr := ih rest hnot.2 (by simpa using hk)
      rw [hr, if_neg (by omega)]
      push_cast
      omega

lemma filter_eraseIdx_of_false (q : TerminalGroup → Bool) :
    ∀ (l : List TerminalGroup) (k : Nat) (g : TerminalGroup),
      l[k]? = some g → q g = false →
      (l.eraseIdx k).filter q = l.filter q := by
  intro l
  induction l with
  | nil => intro k g hk _; simp at hk
  | cons x rest ih =>
    intro k g hk hq
    cases k with
    | zero =>
      simp only [List.getElem?_cons_zero, Option.some.injEq] at hk
      subst hk
      rw [List.eraseIdx_cons_zero, List.filter_cons, if_neg (by simp [hq])]
    | succ k =>
      simp only [List.getElem?_cons_succ] at hk
      rw [List.eraseIdx_cons_succ, List.filter_cons, List.filter_cons]
      rw [ih k g hk hq]

lemma filter_insertIdx_of_false (q : TerminalGroup → Bool) (x : TerminalGroup)
    (hq : q x = false) :
    ∀ (k : Nat) (l : List TerminalGroup), k ≤ l.length →
      (List.insertIdx k x l).filter q = l.filter q := by
  intro k
  induction k with
  | zero =>
    intro l _
    rw [List.insertIdx_zero, List.filter_cons, if_neg (by simp [hq])]
  | succ k ih =>
    intro l hk
    cases l with
    | nil => simp at hk
    | cons y rest =>
      rw [List.insertIdx_succ_cons, List.filter_cons, List.filter_cons]
      rw [ih rest (by simpa using hk)]

lemma not_mem_map_gid_eraseIdx :
    ∀ (l : List TerminalGroup) (k : Nat) (g : TerminalGroup),
      (l.map TerminalGroup.gid).Nodup → l[k]? = some g →
      g.gid ∉ (l.eraseIdx k).map TerminalGroup.gid := by
  intro l
  induction l with
  | nil => intro k g _ hk; simp at hk
  | cons x rest ih =>
    intro k g hn hk
    simp only [List.map_cons, List.nodup_cons] at hn
    cases k with
    | zero =>
      simp only [List.getElem?_cons_zero, Option.some.injEq] at hk
      subst hk
      rw [List.eraseIdx_cons_zero]
      exact hn.1
    | succ k =>
      simp only [List.getElem?_cons_succ] at hk
      rw [List.eraseIdx_cons_succ, List.map_cons]
      intro hmem
      rcases List.mem_cons.mp hmem with hx | hrest
      · have : g ∈ rest := List.getElem?_mem hk
        exact hn.1 (hx ▸ List.mem_map_of_mem TerminalGroup.gid this)
      · exact ih k g hn.2 hk hrest

/-- C6: when both instances resolve, `moveGroup` relocates the source group
(remove-then-insert splice) so that it sits at the old position of the
target's group, keeping every other group in relative order and the total
count unchanged; when either resolution fails nothing changes and nothing
fires. -/
theorem moveGroup_splice (st : GState) (source target : Nat)
    (hn : (st.groups.map TerminalGroup.gid).Nodup) :
    (getGroupForInstance st source = none ∨ getGroupForInstance st target = none →
      moveGroup st source target = (st, [])) ∧
    (∀ sg tg, getGroupForInstance st source = some sg →
      getGroupForInstance st target = some tg →
      (moveGroup st source target).1.groups.length = st.groups.length ∧
      sg ∈ (moveGroup st source target).1.groups ∧
      indexOfGid (moveGroup st source target).1.groups sg.gid
        = indexOfGid st.groups tg.gid ∧
      (moveGroup st source target).1.groups.filter (fun x => x.gid ≠ sg.gid)
        = st.groups.filter (fun x => x.gid ≠ sg.gid)) := by
  constructor
  · intro h
    unfold moveGroup
    rcases h with h | h
    · rw [h]
    · rw [h]
      cases getGroupForInstance st source <;> rfl
  · intro sg tg hs ht
    obtain ⟨ks, hks⟩ := List.mem_iff_getElem?.mp (List.mem_of_find?_eq_some hs)
    obtain ⟨kt, hkt⟩ := List.mem_iff_getElem?.mp (List.mem_of_find?_eq_some ht)
    have hsidx : indexOfGid st.groups sg.gid = (ks : Int) :=
      indexOfGid_of_getElem? st.groups ks sg hn hks
    have htidx : indexOfGid st.groups tg.gid = (kt : Int) :=
      indexOfGid_of_getElem? st.groups kt tg hn hkt
    have hkslen : ks < st.groups.length := by
      rcases List.getElem?_eq_some.mp hks with ⟨h, _⟩
      exact h
    have hktlen : kt < st.groups.length := by
      rcases List.getElem?_eq_some.mp hkt with ⟨h, _⟩
      exact h
    have herl : (st.groups.eraseIdx ks).length = st.groups.length - 1 :=
      List.length_eraseIdx_of_lt hkslen
    have hktle : kt ≤ (st.groups.eraseIdx ks).length := by omega
    have hnotmem : sg.gid ∉ (st.groups.eraseIdx ks).map TerminalGroup.gid :=
      not_mem_map_gid_eraseIdx st.groups ks sg hn hks
    unfold moveGroup
    rw [hs, ht]
    dsimp only
    rw [hsidx, htidx]
    have htos : ((ks : Int)).toNat = ks := Int.toNat_ofNat ks
    have htot : ((kt : Int)).toNat = kt := Int.toNat_ofNat kt
    rw [htos, htot]
    refine ⟨?_, ?_, ?_, ?_⟩
    · rw [List.length_insertIdx kt _ hktle]
      omega
    · exact (List.mem_insertIdx hktle).mpr (Or.inl rfl)
    · exact indexOfGid_insertIdx sg kt _ hnotmem hktle
    · rw [filter_insertIdx_of_false _ sg (by simp) kt _ hktle]
      exact filter_eraseIdx_of_false _ st.groups ks sg hks (by simp)

/-- C6 witness: moving the first of three groups to the last position keeps
the count and puts the source group at the target's old position. -/
theorem moveGroup_splice_witness :
    (moveGroup
      { groups := [{ gid := 0, terminalInstances := [10, 11],
                     activeInstanceIndexLocal := 0, visible := true },
                   { gid := 1, terminalInstances := [20],
                     activeInstanceIndexLocal := 0, visible := false },
                   { gid := 2, terminalInstances := [30, 31],
                     activeInstanceIndexLocal := 1, visible := false }],
        activeGroupIndex := 0, activeInstanceIndex := 0 } 10 30).1.groups.length
      = ({ groups := [{ gid := 0, terminalInstances := [10, 11],
                        activeInstanceIndexLocal := 0, visible := true },
                      { gid := 1, terminalInstances := [20],
                        activeInstanceIndexLocal := 0, visible := false },
                      { gid := 2, terminalInstances := [30, 31],
                        activeInstanceIndexLocal := 1, visible := false }],
           activeGroupIndex := 0, activeInstanceIndex := 0 } : GState).groups.length := by
  have h := (moveGroup_splice
    { groups := [{ gid := 0, terminalInstances := [10, 11],
                   activeInstanceIndexLocal := 0, visible := true },
                 { gid := 1, terminalInstances := [20],
                   activeInstanceIndexLocal := 0, visible := false },
                 { gid := 2, terminalInstances := [30, 31],
                   activeInstanceIndexLocal := 1, visible := false }],
      activeGroupIndex := 0, activeInstanceIndex := 0 } 10 30 (by decide)).2
    { gid := 0, terminalInstances := [10, 11],
      activeInstanceIndexLocal := 0, visible := true }
    { gid := 2, terminalInstances := [30, 31],
      activeInstanceIndexLocal := 1, visible := false }
    (by decide) (by decide)
  exact h.1

/-! ## C4: joinInstances — generic helpers -/

/-- Distinct positions of a `Nodup` list hold distinct elements. -/
lemma nodup_ne_of_getElem? {α : Type} (l : List α) (h : l.Nodup) (i j : Nat) (x y : α)
    (hi : l[i]? = some x) (hj : l[j]? = some y) (hij : i ≠ j) : x ≠ y := by
  have hp := List.pairwise_iff_getElem.mp h
  obtain ⟨hi', hix⟩ := List.getElem?_eq_some.mp hi
  obtain ⟨hj', hjy⟩ := List.getElem?_eq_some.mp hj
  rcases Nat.lt_or_ge i j with hlt | hge
  · exact hix ▸ hjy ▸ hp i j hi' hj' hlt
  · have hlt : j < i := by omega
    exact fun hxy => (hp j i hj' hi' hlt) (hjy ▸ hix ▸ hxy.symm)

/-- With a duplicate-free flat instance list, an instance in the group at
one position is in no group at another position. -/
lemma flatten_disjoint_of_nodup (gs : List TerminalGroup)
    (h : ((gs.map TerminalGroup.terminalInstances).flatten).Nodup) :
    ∀ (p q : Nat) (gp gq : TerminalGroup), gs[p]? = some gp → gs[q]? = some gq →
      p ≠ q → ∀ x ∈ gp.terminalInstances, x ∉ gq.terminalInstances := by
  induction gs with
  | nil => intro p q gp gq hp; simp at hp
  | cons y rest ih =>
    rw [List.map_cons, List.flatten_cons, List.nodup_append] at h
    obtain ⟨hy, hrest, hdisj⟩ := h
    intro p q gp gq hp hq hpq x hxp
    cases p with
    | zero =>
      simp only [List.getElem?_cons_zero, Option.some.injEq] at hp
      subst hp
      cases q with
      | zero => exact absurd rfl hpq
      | succ q =>
        simp only [List.getElem?_cons_succ] at hq
        intro hxq
        exact hdisj hxp (List.mem_flatten.mpr
          ⟨gq.terminalInstances,
            List.mem_map_of_mem TerminalGroup.terminalInstances (List.getElem?_mem hq), hxq⟩)
    | succ p =>
      simp only [List.getElem?_cons_succ] at hp
      cases q with
      | zero =>
        simp only [List.getElem?_cons_zero, Option.some.injEq] at hq
        subst hq
        intro hxq
        exact hdisj hxq (List.mem_flatten.mpr
          ⟨gp.terminalInstances,
            List.mem_map_of_mem TerminalGroup.terminalInstances (List.getElem?_mem hp), hxp⟩)
      | succ q =>
        simp only [List.getElem?_cons_succ] at hq
        exact ih hrest p q gp gq hp hq (by omega) x hxp

/-- `find?` resolves to the element at the unique position satisfying the
predicate. -/
lemma find?_eq_of_unique_pos {α : Type} (p : α → Bool) (l : List α) (k : Nat) (x : α)
    (hk : l[k]? = some x) (hx : p x = true)
    (hother : ∀ j y, l[j]? = some y → j ≠ k → p y = false) :
    l.find? p = some x := by
  induction l generalizing k with
  | nil => simp at hk
  | cons z rest ih =>
    cases k with
    | zero =>
      simp only [List.getElem?_cons_zero, Option.some.injEq] at hk
      subst hk
      exact List.find?_cons_of_pos rest hx
    | succ k =>
      simp only [List.getElem?_cons_succ] at hk
      have hz : p z = false := hother 0 z (by simp) (by omega)
      rw [List.find?_cons_of_neg rest (by simp [hz])]
      exact ih k hk (fun j y hj hjk => hother (j + 1) y (by simpa using hj) (by omega))

/-- In-range flat indices always resolve. -/
lemma getInstanceLocationAux_total (groups : List TerminalGroup) :
    ∀ (i : Int) (k : Nat), 0 ≤ i →
      i < ((((groups.map (fun g => g.terminalInstances.length)).sum : Nat)) : Int) →
      ∃ loc, getInstanceLocationAux groups i k = some loc := by
  induction groups with
  | nil =>
    intro i k h0 hlt
    simp at hlt
    omega
  | cons g rest ih =>
    intro i k h0 hlt
    unfold getInstanceLocationAux
    rw [if_neg (by omega)]
    by_cases hg : i < (g.terminalInstances.length : Int)
    · rw [if_pos hg]
      exact ⟨_, rfl⟩
    · rw [if_neg hg]
      apply ih
      · omega
      · rw [List.map_cons, List.sum_cons, Nat.cast_add] at hlt
        omega

/-- `findIndex` on a list containing `x` returns an index holding `x`. -/
lemma findIdx?_self_mem (l : List Nat) (x : Nat) (hx : x ∈ l) :
    ∃ k, l.findIdx? (fun e => e = x) = some k ∧ l[k]? = some x := by
  have hex : ∃ y ∈ l, (fun e => decide (e = x)) y = true := ⟨x, hx, by simp⟩
  have hlt := List.findIdx_lt_length_of_exists hex
  refine ⟨l.findIdx (fun e => e = x), ?_, ?_⟩
  · exact List.findIdx?_eq_some_iff_findIdx_eq.mpr ⟨hlt, rfl⟩
  · rw [List.getElem?_eq_getElem hlt]
    have := @List.findIdx_getElem _ (fun e => decide (e = x)) l hlt
    simpa using this

lemma map_eraseIdx_comm {α β : Type} (f : α → β) :
    ∀ (l : List α) (k : Nat), (l.eraseIdx k).map f = (l.map f).eraseIdx k := by
  intro l
  induction l with
  | nil => intro k; simp
  | cons x rest ih =>
    intro k
    cases k with
    | zero => simp
    | succ k =>
      rw [List.eraseIdx_cons_succ, List.map_cons, List.map_cons,
        List.eraseIdx_cons_succ, ih k]

/-- The identity-and-membership projection of a group list: visibility and
local active-index changes do not affect it. -/
def gidInst (l : List TerminalGroup) : List (Nat × List Nat) :=
  l.map (fun g => (g.gid, g.terminalInstances))

lemma gidInst_map_fst (l : List TerminalGroup) :
    (gidInst l).map Prod.fst = l.map TerminalGroup.gid := by
  rw [gidInst, List.map_map]
  rfl

lemma gidInst_mem_of_mem (l : List TerminalGroup) (g : TerminalGroup) (h : g ∈ l) :
    (g.gid, g.terminalInstances) ∈ gidInst l :=
  List.mem_map_of_mem _ h

lemma mem_of_gidInst_mem (l : List TerminalGroup) (gi : Nat) (li : List Nat)
    (h : (gi, li) ∈ gidInst l) :
    ∃ g ∈ l, g.gid = gi ∧ g.terminalInstances = li := by
  obtain ⟨g, hg, hpair⟩ := List.mem_map.mp h
  exact ⟨g, hg, congrArg Prod.fst hpair, congrArg Prod.snd hpair⟩

lemma gidInst_flatten (l : List TerminalGroup) :
    ((gidInst l).map Prod.snd).flatten = (l.map TerminalGroup.terminalInstances).flatten := by
  rw [gidInst, List.map_map]
  rfl

lemma gidInst_setGroupsVisible (l : List TerminalGroup) (i : Int) :
    gidInst (setGroupsVisible l i) = gidInst l := by
  apply List.ext_getElem?
  intro n
  rw [gidInst, gidInst, List.getElem?_map, List.getElem?_map, setGroupsVisible,
    List.getElem?_mapIdx]
  cases l[n]? <;> rfl

lemma gidInst_updateGroupAt_proj (l : List TerminalGroup) (gid : Nat)
    (f : TerminalGroup → TerminalGroup)
    (hf : ∀ g, (f g).gid = g.gid ∧ (f g).terminalInstances = g.terminalInstances) :
    gidInst (updateGroupAt l gid f) = gidInst l := by
  rw [gidInst, gidInst, updateGroupAt, List.map_map]
  apply List.map_congr_left
  intro g _
  show (fun g => ((g : TerminalGroup).gid, g.terminalInstances))
      (if g.gid = gid then f g else g) = (g.gid, g.terminalInstances)
  split
  · exact Prod.ext (hf g).1 (hf g).2
  · rfl

lemma gidInst_setActiveGroupByIndex (st : GState) (i : Int) :
    gidInst (setActiveGroupByIndex st i).1.groups = gidInst st.groups := by
  unfold setActiveGroupByIndex
  split
  · rfl
  · dsimp only
    split
    · exact gidInst_setGroupsVisible _ _
    · rfl

lemma map_gid_setGroupsVisible (l : List TerminalGroup) (i : Int) :
    (setGroupsVisible l i).map TerminalGroup.gid = l.map TerminalGroup.gid := by
  apply List.ext_getElem?
  intro n
  rw [List.getElem?_map, List.getElem?_map, setGroupsVisible, List.getElem?_mapIdx]
  cases l[n]? <;> rfl

lemma gidInst_updateGroupAt_const (l : List TerminalGroup) (g g' : TerminalGroup)
    (hn : (l.map TerminalGroup.gid).Nodup) (hmem : g ∈ l)
    (hgid : g'.gid = g.gid) (hinst : g'.terminalInstances = g.terminalInstances) :
    gidInst (updateGroupAt l g.gid (fun _ => g')) = gidInst l := by
  rw [gidInst, gidInst, updateGroupAt, List.map_map]
  apply List.map_congr_left
  intro e he
  show (fun h => ((h : TerminalGroup).gid, h.terminalInstances))
      (if e.gid = g.gid then g' else e) = (e.gid, e.terminalInstances)
  split
  · rename_i heq
    have hge : e = g := List.inj_on_of_nodup_map hn he hmem heq
    show (g'.gid, g'.terminalInstances) = (e.gid, e.terminalInstances)
    rw [hgid, hinst, hge]
  · rfl

lemma gidInst_groupSetActiveInstanceInState (st : GState) (gid : Nat) (i : Int)
    (hn : (st.groups.map TerminalGroup.gid).Nodup) :
    gidInst (groupSetActiveInstanceInState st gid i).1.groups = gidInst st.groups := by
  unfold groupSetActiveInstanceInState
  cases hf : st.groups.find? (fun g => g.gid = gid) with
  | none => rfl
  | some g =>
    dsimp only
    have hmem : g ∈ st.groups := List.mem_of_find?_eq_some hf
    have hpg : g.gid = gid := by simpa using List.find?_some hf
    rw [← hpg]
    exact gidInst_updateGroupAt_const st.groups g _ hn hmem rfl rfl

lemma gidInst_setActiveInstanceByIndex (st : GState) (i : Int)
    (hn : (st.groups.map TerminalGroup.gid).Nodup) :
    gidInst (setActiveInstanceByIndex st i).1.groups = gidInst st.groups := by
  unfold setActiveInstanceByIndex
  cases hloc : getInstanceLocation st i with
  | none => rfl
  | some loc =>
    dsimp only
    split
    · rfl
    · rw [gidInst_groupSetActiveInstanceInState]
      · exact gidInst_setGroupsVisible _ _
      · show ((setGroupsVisible st.groups (loc.groupIndex : Int)).map TerminalGroup.gid).Nodup
        rw [map_gid_setGroupsVisible]
        exact hn

lemma gidInst_setActiveInstance (st : GState) (x : Nat)
    (hn : (st.groups.map TerminalGroup.gid).Nodup) :
    gidInst (setActiveInstance st x).1.groups = gidInst st.groups := by
  unfold setActiveInstance
  cases getIndexFromId st x with
  | none => rfl
  | some k => exact gidInst_setActiveInstanceByIndex st (k : Int) hn

lemma gidInst_removeGroup (st : GState) (g : TerminalGroup) :
    gidInst (removeGroup st g).1.groups =
      (if indexOfGid st.groups g.gid = -1 then gidInst st.groups
       else (gidInst st.groups).eraseIdx (indexOfGid st.groups g.gid).toNat) := by
  unfold removeGroup
  dsimp only
  by_cases hf : indexOfGid st.groups g.gid = -1
  · simp only [hf, ne_eq, not_true_eq_false, if_false, if_pos]
    split
    · rw [gidInst_setActiveGroupByIndex]
    · split
      · rw [gidInst_setActiveGroupByIndex]
      · rfl
  · simp only [hf, ne_eq, not_false_eq_true, if_true, if_neg hf]
    have herase : gidInst (st.groups.eraseIdx (indexOfGid st.groups g.gid).toNat)
        = (gidInst st.groups).eraseIdx (indexOfGid st.groups g.gid).toNat :=
      map_eraseIdx_comm _ st.groups _
    split
    · rw [gidInst_setActiveGroupByIndex]
      exact herase
    · split
      · rw [gidInst_setActiveGroupByIndex]
        exact herase
      · exact herase

lemma find?_gid_unique (l : List TerminalGroup) (hn : (l.map TerminalGroup.gid).Nodup)
    (k : Nat) (g : TerminalGroup) (hk : l[k]? = some g) :
    l.find? (fun x => x.gid = g.gid) = some g := by
  apply find?_eq_of_unique_pos _ l k g hk (by simp)
  intro j y hj hjk
  have hne : y.gid ≠ g.gid := by
    apply nodup_ne_of_getElem? (l.map TerminalGroup.gid) hn j k
    · rw [List.getElem?_map, hj]
      rfl
    · rw [List.getElem?_map, hk]
      rfl
    · exact hjk
  simpa using hne

lemma getGroupForInstance_eq_of_unique (st : GState) (x : Nat) (k : Nat) (g : TerminalGroup)
    (hk : st.groups[k]? = some g) (hx : x ∈ g.terminalInstances)
    (hother : ∀ j y, st.groups[j]? = some y → j ≠ k → x ∉ y.terminalInstances) :
    getGroupForInstance st x = some g := by
  unfold getGroupForInstance
  apply find?_eq_of_unique_pos _ _ k g hk (by simpa using hx)
  intro j y hj hjk
  simpa using hother j y hj hjk

lemma removeInstanceFromGroup_nocascade (st : GState) (g : TerminalGroup) (x : Nat)
    (hn : (st.groups.map TerminalGroup.gid).Nodup)
    (k : Nat) (hk : st.groups[k]? = some g)
    (hx : x ∈ g.terminalInstances)
    (hnem : g.terminalInstances.erase x ≠ []) :
    removeInstanceFromGroup st g.gid x =
      ({ st with
          groups := updateGroupAt st.groups g.gid (fun _ =>
            { g with
                terminalInstances := g.terminalInstances.erase x,
                activeInstanceIndexLocal :=
                  if ((g.terminalInstances.erase x).length : Int) ≤ g.activeInstanceIndexLocal
                  then ((g.terminalInstances.erase x).length : Int) - 1
                  else g.activeInstanceIndexLocal }) }, []) := by
  unfold removeInstanceFromGroup
  rw [find?_gid_unique st.groups hn k g hk]
  dsimp only
  rw [if_pos hx, if_neg (by simpa using List.length_eq_zero.not.mpr hnem)]

lemma removeInstanceFromGroup_cascade (st : GState) (g : TerminalGroup) (x : Nat)
    (hn : (st.groups.map TerminalGroup.gid).Nodup)
    (k : Nat) (hk : st.groups[k]? = some g)
    (hx : x ∈ g.terminalInstances)
    (hz : g.terminalInstances.erase x = []) :
    removeInstanceFromGroup st g.gid x =
      removeGroup
        { st with
            groups := updateGroupAt st.groups g.gid (fun _ =>
              { g with
                  terminalInstances := g.terminalInstances.erase x,
                  activeInstanceIndexLocal :=
                    if ((g.terminalInstances.erase x).length : Int) ≤ g.activeInstanceIndexLocal
                    then ((g.terminalInstances.erase x).length : Int) - 1
                    else g.activeInstanceIndexLocal }) }
        { g with
            terminalInstances := g.terminalInstances.erase x,
            activeInstanceIndexLocal :=
              if ((g.terminalInstances.erase x).length : Int) ≤ g.activeInstanceIndexLocal
              then ((g.terminalInstances.erase x).length : Int) - 1
              else g.activeInstanceIndexLocal } := by
  unfold removeInstanceFromGroup
  rw [find?_gid_unique st.groups hn k g hk]
  dsimp only
  rw [if_pos hx, if_pos (by simpa using List.length_eq_zero.mpr hz)]

lemma length_updateGroupAt (l : List TerminalGroup) (gid : Nat) (f : TerminalGroup → TerminalGroup) :
    (updateGroupAt l gid f).length = l.length := by
  simp [updateGroupAt]

/-- `setActiveInstance` on an id present in the flat instance list does not
throw, and afterwards that instance is the service's active instance. -/
lemma setActiveInstance_sets_active (st : GState) (x : Nat)
    (hn : (st.groups.map TerminalGroup.gid).Nodup)
    (hx : x ∈ st.instances) :
    (setActiveInstance st x).2.2 = none ∧
    (setActiveInstance st x).1.activeInstance = some x := by
  obtain ⟨k, hfi, hkx⟩ := findIdx?_self_mem st.instances x hx
  have hklen : k < st.instances.length := (List.getElem?_eq_some.mp hkx).1
  have htot : ((k : Int)) <
      (((st.groups.map (fun g => g.terminalInstances.length)).sum : Nat) : Int) := by
    rw [← instances_length]
    exact_mod_cast hklen
  obtain ⟨loc, hloc⟩ :=
    getInstanceLocationAux_total st.groups (k : Int) 0 (Int.ofNat_nonneg k) htot
  obtain ⟨p, hp1, hp2, hp3, hp4, hp5, hp6, hp7⟩ :=
    getInstanceLocationAux_some st.groups (k : Int) 0 loc hloc
  have hp0 : loc.groupIndex = p := by omega
  subst hp0
  have hinst_x : loc.inst = x := by
    have hinst : st.instances = (st.groups.map TerminalGroup.terminalInstances).flatten := rfl
    rw [hinst] at hkx
    rw [Int.toNat_ofNat] at hp7
    rw [hp7] at hkx
    exact (Option.some.injEq _ _).mp hkx
  unfold setActiveInstance getIndexFromId
  rw [hfi]
  dsimp only
  refine ⟨rfl, ?_⟩
  unfold setActiveInstanceByIndex
  rw [show getInstanceLocation st (k : Int) = some loc from hloc]
  dsimp only
  split
  · rename_i hact
    rw [hact, hp5, hinst_x]
  · rename_i hact
    have hglen : (setGroupsVisible st.groups (loc.groupIndex : Int)).length
        = st.groups.length := length_setGroupsVisible _ _
    have hgv : (setGroupsVisible st.groups (loc.groupIndex : Int))[loc.groupIndex]? =
        some { loc.group with
               visible := decide ((loc.groupIndex : Int) = (loc.groupIndex : Int)) } := by
      rw [getElem?_setGroupsVisible, hp3]
      rfl
    have hnv : ((setGroupsVisible st.groups (loc.groupIndex : Int)).map
        TerminalGroup.gid).Nodup := by
      rw [map_gid_setGroupsVisible]
      exact hn
    have hfind : (setGroupsVisible st.groups (loc.groupIndex : Int)).find?
        (fun g => g.gid = loc.group.gid) = some
          { loc.group with
            visible := decide ((loc.groupIndex : Int) = (loc.groupIndex : Int)) } :=
      find?_gid_unique _ hnv loc.groupIndex _ hgv
    unfold groupSetActiveInstanceInState
    simp only [GState.groups_mk, GState.activeGroupIndex_mk, GState.activeInstanceIndex_mk]
    rw [hfind]
    dsimp only
    unfold groupSetActiveInstanceByIndex
    dsimp only
    unfold GState.activeInstance GState.activeGroup
    simp only [GState.groups_mk, GState.activeGroupIndex_mk]
    rw [if_neg (by
      rw [length_updateGroupAt, hglen]
      omega)]
    rw [updateGroupAt, List.getElem?_map, Int.toNat_ofNat, hgv]
    simp only [Option.map_some', Option.some_bind]
    simp only [TerminalGroup.gid_mk, eq_self_iff_true, if_true]
    unfold TerminalGroup.activeInstance
    simp only [TerminalGroup.terminalInstances_mk, TerminalGroup.activeInstanceIndexLocal_mk]
    rw [if_neg (by omega)]
    rw [Int.toNat_ofNat]
    rw [hp5, hinst_x]

/-- The tail of `joinInstances` after the instances have been moved into the
destination group: setting the first instance active succeeds and all
structural facts about the groups survive. -/
lemma joinInstances_final_phase (st2 : GState) (a b c gbgid : Nat)
    (origGids : List Nat) (LB : List Nat)
    (W1 : (st2.groups.map TerminalGroup.gid).Nodup)
    (W2 : ∃ g2 ∈ st2.groups, g2.gid = gbgid ∧ g2.terminalInstances = LB)
    (W3 : ∀ g' ∈ st2.groups, g'.gid ≠ gbgid →
      a ∉ g'.terminalInstances ∧ b ∉ g'.terminalInstances ∧ c ∉ g'.terminalInstances)
    (W4 : ∀ g' ∈ st2.groups, g'.gid ∈ origGids)
    (W6a : a ∈ LB)
    (W6 : ∀ x, x ∈ LB ↔ x = a ∨ x = b ∨ x = c) :
    (setActiveInstance st2 a).2.2 = none ∧
    (∃ g ∈ (setActiveInstance st2 a).1.groups, g.gid = gbgid ∧
      (∀ x, x ∈ g.terminalInstances ↔ x = a ∨ x = b ∨ x = c) ∧
      (∀ g' ∈ (setActiveInstance st2 a).1.groups,
        (∀ x, x ∈ g'.terminalInstances ↔ x = a ∨ x = b ∨ x = c) → g' = g)) ∧
    (setActiveInstance st2 a).1.activeInstance = some a ∧
    (∀ g' ∈ (setActiveInstance st2 a).1.groups, g'.gid ∈ origGids) ∧
    (∀ g' ∈ (setActiveInstance st2 a).1.groups, g'.gid ≠ gbgid →
      a ∉ g'.terminalInstances ∧ c ∉ g'.terminalInstances) ∧
    (setActiveInstance st2 a).1.groups.length = st2.groups.length := by
  obtain ⟨g2, hg2m, hg2gid, hg2inst⟩ := W2
  have hmem_a : a ∈ st2.instances := by
    show a ∈ (st2.groups.map TerminalGroup.terminalInstances).flatten
    exact List.mem_flatten.mpr ⟨g2.terminalInstances,
      List.mem_map_of_mem TerminalGroup.terminalInstances hg2m, hg2inst ▸ W6a⟩
  obtain ⟨herr, hact⟩ := setActiveInstance_sets_active st2 a W1 hmem_a
  have hgi : gidInst (setActiveInstance st2 a).1.groups = gidInst st2.groups :=
    gidInst_setActiveInstance st2 a W1
  have htrans : ∀ g' ∈ (setActiveInstance st2 a).1.groups,
      ∃ g'' ∈ st2.groups, g''.gid = g'.gid ∧
        g''.terminalInstances = g'.terminalInstances := by
    intro g' hg'
    have := gidInst_mem_of_mem _ g' hg'
    rw [hgi] at this
    obtain ⟨g'', hm, hgid, hinst⟩ := mem_of_gidInst_mem _ _ _ this
    exact ⟨g'', hm, hgid, hinst⟩
  have hnF : ((setActiveInstance st2 a).1.groups.map TerminalGroup.gid).Nodup := by
    rw [← gidInst_map_fst, hgi, gidInst_map_fst]
    exact W1
  have hgb : ∃ g ∈ (setActiveInstance st2 a).1.groups,
      g.gid = gbgid ∧ g.terminalInstances = LB := by
    have : (gbgid, LB) ∈ gidInst (setActiveInstance st2 a).1.groups := by
      rw [hgi]
      have := gidInst_mem_of_mem _ g2 hg2m
      rw [hg2gid, hg2inst] at this
      exact this
    exact mem_of_gidInst_mem _ _ _ this
  obtain ⟨g, hgm, hggid, hginst⟩ := hgb
  refine ⟨herr, ⟨g, hgm, hggid, ?_, ?_⟩, hact, ?_, ?_, ?_⟩
  · intro x
    rw [hginst]
    exact W6 x
  · intro g' hg' hset
    have hbmem : b ∈ g'.terminalInstances := (hset b).mpr (Or.inr (Or.inl rfl))
    obtain ⟨g'', hm, hgid, hinst⟩ := htrans g' hg'
    have hgid' : g'.gid = gbgid := by
      by_contra hne
      have := (W3 g'' hm (by rw [hgid]; exact hne)).2.1
      rw [hinst] at this
      exact this hbmem
    exact List.inj_on_of_nodup_map hnF hg' hgm (by rw [hgid', hggid])
  · intro g' hg'
    obtain ⟨g'', hm, hgid, _⟩ := htrans g' hg'
    rw [← hgid]
    exact W4 g'' hm
  · intro g' hg' hne
    obtain ⟨g'', hm, hgid, hinst⟩ := htrans g' hg'
    have h3 := W3 g'' hm (by rw [hgid]; exact hne)
    rw [hinst] at h3
    exact ⟨h3.1, h3.2.2⟩
  · have h1 : (setActiveInstance st2 a).1.groups.length
        = (gidInst (setActiveInstance st2 a).1.groups).length := by
      rw [gidInst, List.length_map]
    rw [h1, hgi, gidInst, List.length_map]

lemma updateGroupAt_getElem? (l : List TerminalGroup) (gid : Nat)
    (f : TerminalGroup → TerminalGroup) (j : Nat) :
    (updateGroupAt l gid f)[j]? = l[j]?.map (fun y => if y.gid = gid then f y else y) := by
  rw [updateGroupAt, List.getElem?_map]

lemma map_gid_updateGroupAt (l : List TerminalGroup) (gid : Nat)
    (f : TerminalGroup → TerminalGroup) (hf : ∀ g, g.gid = gid → (f g).gid = gid) :
    (updateGroupAt l gid f).map TerminalGroup.gid = l.map TerminalGroup.gid := by
  rw [updateGroupAt, List.map_map]
  apply List.map_congr_left
  intro y _
  show (if y.gid = gid then f y else y).gid = y.gid
  split
  · rename_i heq
    rw [hf y heq, heq]
  · rfl

lemma addInstanceToGroup_eq (st : GState) (gid : Nat) (inst : Nat) :
    addInstanceToGroup st gid inst =
      ({ st with
          groups := updateGroupAt st.groups gid
            (fun g => { g with terminalInstances := g.terminalInstances ++ [inst] }) }, []) :=
  rfl

lemma inst_nodup_of_flatten (gs : List TerminalGroup)
    (h : ((gs.map TerminalGroup.terminalInstances).flatten).Nodup)
    (k : Nat) (g : TerminalGroup) (hk : gs[k]? = some g) :
    g.terminalInstances.Nodup :=
  (List.nodup_flatten.mp h).1 _
    (List.mem_map_of_mem TerminalGroup.terminalInstances (List.getElem?_mem hk))

lemma mem_eraseIdx_of_getElem?_ne {α : Type} (l : List α) (j k : Nat) (x : α)
    (hj : l[j]? = some x) (hne : j ≠ k) : x ∈ l.eraseIdx k := by
  rcases Nat.lt_or_ge j k with hlt | hge
  · apply List.getElem?_mem (n := j)
    rw [List.getElem?_eraseIdx, if_pos hlt]
    exact hj
  · have hgt : k < j := by omega
    apply List.getElem?_mem (n := j - 1)
    rw [List.getElem?_eraseIdx, if_neg (by omega)]
    have : j - 1 + 1 = j := by omega
    rw [this]
    exact hj

/-- A non-candidate instance whose group keeps other members is detached
from it and appended to the destination group. -/
lemma joinMoveStep_moves (cgid : Nat) (ci : Option Nat) (stX : GState) (evs : List Ev)
    (x : Nat) (g : TerminalGroup) (k : Nat)
    (hci : some x ≠ ci)
    (hn : (stX.groups.map TerminalGroup.gid).Nodup)
    (hfind : getGroupForInstance stX x = some g)
    (hk : stX.groups[k]? = some g)
    (hx : x ∈ g.terminalInstances)
    (hnem : g.terminalInstances.erase x ≠ []) :
    joinMoveStep cgid ci (stX, evs) x =
      ({ stX with
          groups := updateGroupAt
            (updateGroupAt stX.groups g.gid (fun _ =>
              { g with
                  terminalInstances := g.terminalInstances.erase x,
                  activeInstanceIndexLocal :=
                    if ((g.terminalInstances.erase x).length : Int) ≤ g.activeInstanceIndexLocal
                    then ((g.terminalInstances.erase x).length : Int) - 1
                    else g.activeInstanceIndexLocal }))
            cgid (fun h => { h with terminalInstances := h.terminalInstances ++ [x] }) },
        evs) := by
  unfold joinMoveStep
  rw [if_neg hci, hfind]
  dsimp only
  rw [removeInstanceFromGroup_nocascade stX g x hn k hk hx hnem, addInstanceToGroup_eq]
  simp

lemma joinMoveStep_skip (cgid : Nat) (acc : GState × List Ev) (x : Nat) :
    joinMoveStep cgid (some x) acc x = acc := by
  unfold joinMoveStep
  rw [if_pos rfl]


/-- A non-candidate instance that is the last remaining member of its group
triggers the group-removal cascade before the append to the destination. -/
lemma joinMoveStep_cascade (cgid : Nat) (ci : Option Nat) (stX : GState) (evs : List Ev)
    (x : Nat) (g : TerminalGroup) (k : Nat)
    (hci : some x ≠ ci)
    (hn : (stX.groups.map TerminalGroup.gid).Nodup)
    (hfind : getGroupForInstance stX x = some g)
    (hk : stX.groups[k]? = some g)
    (hx : x ∈ g.terminalInstances)
    (hz : g.terminalInstances.erase x = []) :
    joinMoveStep cgid ci (stX, evs) x =
      (let gZ : TerminalGroup :=
        { g with
            terminalInstances := g.terminalInstances.erase x,
            activeInstanceIndexLocal :=
              if ((g.terminalInstances.erase x).length : Int) ≤ g.activeInstanceIndexLocal
              then ((g.terminalInstances.erase x).length : Int) - 1
              else g.activeInstanceIndexLocal }
      let r1 := removeGroup
        { stX with groups := updateGroupAt stX.groups g.gid (fun _ => gZ) } gZ
      let r2 := addInstanceToGroup r1.1 cgid x
      (r2.1, evs ++ r1.2 ++ r2.2)) := by
  unfold joinMoveStep
  rw [if_neg hci, hfind]
  dsimp only
  rw [removeInstanceFromGroup_cascade stX g x hn k hk hx hz]

set_option maxHeartbeats 3200000 in
/-- C4: for `joinInstances([a, b, c])` where `a`, `b`, `c` each belong to a
group of the collection, `b` is the sole instance of its group and `a` and
`c` are not sole instances of theirs, the call returns without error and
afterwards: exactly one group holds exactly the set `{a, b, c}`, that group
is `b`'s pre-existing group (every surviving gid already existed, and no
group beyond the original ones is present), `a` is the active instance, and
`a` and `c` are gone from every group other than the destination. -/
theorem joinInstances_merges_into_sole_group (st : GState) (freshGid : Nat)
    (a b c : Nat) (ga gb gc : TerminalGroup) (ka kb kc : Nat)
    (hgidn : (st.groups.map TerminalGroup.gid).Nodup)
    (hfln : st.instances.Nodup)
    (hka : st.groups[ka]? = some ga) (hkb : st.groups[kb]? = some gb)
    (hkc : st.groups[kc]? = some gc)
    (ha : a ∈ ga.terminalInstances) (hb : gb.terminalInstances = [b])
    (hc : c ∈ gc.terminalInstances)
    (hga2 : 2 ≤ ga.terminalInstances.length) (hgc2 : 2 ≤ gc.terminalInstances.length) :
    (joinInstances st freshGid [a, b, c]).2.2 = none ∧
    (∃ g ∈ (joinInstances st freshGid [a, b, c]).1.groups,
      g.gid = gb.gid ∧
      (∀ x, x ∈ g.terminalInstances ↔ x = a ∨ x = b ∨ x = c) ∧
      ∀ g' ∈ (joinInstances st freshGid [a, b, c]).1.groups,
        (∀ x, x ∈ g'.terminalInstances ↔ x = a ∨ x = b ∨ x = c) → g' = g) ∧
    (joinInstances st freshGid [a, b, c]).1.activeInstance = some a ∧
    (∀ g' ∈ (joinInstances st freshGid [a, b, c]).1.groups,
      g'.gid ∈ st.groups.map TerminalGroup.gid) ∧
    (joinInstances st freshGid [a, b, c]).1.groups.length ≤ st.groups.length ∧
    (∀ g' ∈ (joinInstances st freshGid [a, b, c]).1.groups, g'.gid ≠ gb.gid →
      a ∉ g'.terminalInstances ∧ c ∉ g'.terminalInstances) := by
  have hflng : ((st.groups.map TerminalGroup.terminalInstances).flatten).Nodup := hfln
  have FLD := flatten_disjoint_of_nodup st.groups hflng
  have hbmem : b ∈ gb.terminalInstances := by rw [hb]; exact List.mem_cons_self b []
  have hgam : ga ∈ st.groups := List.getElem?_mem hka
  have hgbm : gb ∈ st.groups := List.getElem?_mem hkb
  have hgcm : gc ∈ st.groups := List.getElem?_mem hkc
  have hga_gb : ga.gid ≠ gb.gid := by
    intro h
    have : ga = gb := List.inj_on_of_nodup_map hgidn hgam hgbm h
    rw [this, hb] at hga2
    simp at hga2
  have hgc_gb : gc.gid ≠ gb.gid := by
    intro h
    have : gc = gb := List.inj_on_of_nodup_map hgidn hgcm hgbm h
    rw [this, hb] at hgc2
    simp at hgc2
  have hgid_at : ∀ (j : Nat) (y : TerminalGroup) (k : Nat) (g : TerminalGroup),
      st.groups[j]? = some y → st.groups[k]? = some g → j ≠ k → y.gid ≠ g.gid := by
    intro j y k g hj hk hjk
    apply nodup_ne_of_getElem? _ hgidn j k
    · rw [List.getElem?_map, hj]; rfl
    · rw [List.getElem?_map, hk]; rfl
    · exact hjk
  have hka_kb : ka ≠ kb := by
    intro h
    subst h
    rw [hka] at hkb
    exact hga_gb (by rw [(Option.some.injEq _ _).mp hkb])
  have hkc_kb : kc ≠ kb := by
    intro h
    subst h
    rw [hkc] at hkb
    exact hgc_gb (by rw [(Option.some.injEq _ _).mp hkb])
  have hanb : a ≠ b := by
    intro h
    exact FLD ka kb ga gb hka hkb hka_kb a ha (h ▸ hbmem)
  have hcnb : c ≠ b := by
    intro h
    exact FLD kc kb gc gb hkc hkb hkc_kb c hc (h ▸ hbmem)
  have hgfa : getGroupForInstance st a = some ga :=
    getGroupForInstance_eq_of_unique st a ka ga hka ha
      (fun j y hj hjk => FLD ka j ga y hka hj (fun hh => hjk hh.symm) a ha)
  have hgfb : getGroupForInstance st b = some gb :=
    getGroupForInstance_eq_of_unique st b kb gb hkb hbmem
      (fun j y hj hjk => FLD kb j gb y hkb hj (fun hh => hjk hh.symm) b hbmem)
  have hlena : ¬ (ga.terminalInstances.length = 1) := by omega
  have hlenb : gb.terminalInstances.length = 1 := by rw [hb]; rfl
  have hcand : joinInstances st freshGid [a, b, c] =
      joinInstancesCore st [] gb.gid (some b) [a, b, c] := by
    unfold joinInstances
    simp only [List.findSome?_cons, hgfa, hgfb, if_neg hlena, if_pos hlenb]
  rw [hcand]
  unfold joinInstancesCore
  have hgaNd : ga.terminalInstances.Nodup := inst_nodup_of_flatten st.groups hflng ka ga hka
  have hgcNd : gc.terminalInstances.Nodup := inst_nodup_of_flatten st.groups hflng kc gc hkc
  have herase_a_ne : ga.terminalInstances.erase a ≠ [] := by
    intro hcontra
    have hlen := List.length_erase_of_mem ha
    rw [hcontra] at hlen
    simp at hlen
    omega
  have hstepA := joinMoveStep_moves gb.gid (some b) st ([] : List Ev) a ga ka
    (by simp [hanb]) hgidn hgfa hka ha herase_a_ne
  set gaR : TerminalGroup :=
    { ga with
        terminalInstances := ga.terminalInstances.erase a,
        activeInstanceIndexLocal :=
          if ((ga.terminalInstances.erase a).length : Int) ≤ ga.activeInstanceIndexLocal
          then ((ga.terminalInstances.erase a).length : Int) - 1
          else ga.activeInstanceIndexLocal } with hgaR
  set gbA : TerminalGroup :=
    { gb with terminalInstances := gb.terminalInstances ++ [a] } with hgbA
  set UA : List TerminalGroup :=
    updateGroupAt (updateGroupAt st.groups ga.gid (fun _ => gaR)) gb.gid
      (fun h => { h with terminalInstances := h.terminalInstances ++ [a] }) with hUA
  have hgaRgid : gaR.gid = ga.gid := by rw [hgaR]
  have hgbAgid : gbA.gid = gb.gid := by rw [hgbA]
  have hUAgid : UA.map TerminalGroup.gid = st.groups.map TerminalGroup.gid := by
    rw [hUA, map_gid_updateGroupAt, map_gid_updateGroupAt]
    · intro g hg
      rw [hgaRgid]
    · intro g hg
      show g.gid = gb.gid
      exact hg
  have hUAn : (UA.map TerminalGroup.gid).Nodup := by rw [hUAgid]; exact hgidn
  have hUAlen : UA.length = st.groups.length := by
    rw [hUA, length_updateGroupAt, length_updateGroupAt]
  have hUAka : UA[ka]? = some gaR := by
    rw [hUA, updateGroupAt_getElem?, updateGroupAt_getElem?, hka]
    simp [hgaRgid, hga_gb]
  have hUAkb : UA[kb]? = some gbA := by
    rw [hUA, updateGroupAt_getElem?, updateGroupAt_getElem?, hkb]
    simp [Ne.symm hga_gb, hgbA]
  have hUAother : ∀ (j : Nat) (y : TerminalGroup), st.groups[j]? = some y →
      j ≠ ka → j ≠ kb → UA[j]? = some y := by
    intro j y hj hjka hjkb
    rw [hUA, updateGroupAt_getElem?, updateGroupAt_getElem?, hj]
    simp [hgid_at j y ka ga hj hka hjka, hgid_at j y kb gb hj hkb hjkb]
  simp only [List.foldl_cons, List.foldl_nil]
  rw [hstepA, joinMoveStep_skip]
  have mem_to_pos : ∀ (l : List TerminalGroup) (x : TerminalGroup), x ∈ l →
      ∃ j, j < l.length ∧ l[j]? = some x := by
    intro l x hx
    obtain ⟨j, hj⟩ := List.mem_iff_getElem?.mp hx
    exact ⟨j, (List.getElem?_eq_some.mp hj).1, hj⟩
  by_cases hca : c = a
  · -- the third instance is the first one again
    subst hca
    have hkc_ka : kc = ka := by
      by_contra hne
      exact FLD kc ka gc ga hkc hka hne c hc ha
    have hgcga : gc = ga := by
      rw [hkc_ka, hka] at hkc
      exact ((Option.some.injEq _ _).mp hkc).symm
    have hcga : c ∈ ga.terminalInstances := hgcga ▸ hc
    have heq1 : gbA.terminalInstances.erase c = [b] := by
      rw [hgbA]
      show (gb.terminalInstances ++ [c]).erase c = [b]
      rw [hb, List.singleton_append,
        List.erase_cons_tail (by simp [Ne.symm hcnb]), List.erase_cons_head]
    have hgfc1 : getGroupForInstance
        { groups := UA, activeGroupIndex := st.activeGroupIndex,
          activeInstanceIndex := st.activeInstanceIndex } c = some gbA := by
      apply getGroupForInstance_eq_of_unique _ c kb gbA hUAkb
        (by rw [hgbA]; exact List.mem_append.mpr (Or.inr (List.mem_cons_self c [])))
      intro j y hjy hjkb
      have hjlen : j < st.groups.length := by
        rw [← hUAlen]
        exact (List.getElem?_eq_some.mp hjy).1
      have hy0 : st.groups[j]? = some (st.groups[j]) := List.getElem?_eq_getElem hjlen
      by_cases hjka : j = ka
      · subst hjka
        rw [hUAka] at hjy
        have hy : y = gaR := ((Option.some.injEq _ _).mp hjy).symm
        rw [hy, hgaR]
        exact fun hmem => List.Nodup.not_mem_erase hgaNd hmem
      · rw [hUAother j (st.groups[j]) hy0 hjka hjkb] at hjy
        have hy : y = st.groups[j] := ((Option.some.injEq _ _).mp hjy).symm
        rw [hy]
        exact FLD ka j ga (st.groups[j]) hka hy0 (fun h => hjka h.symm) c hcga
    have hstepC := joinMoveStep_moves gb.gid (some b)
      { groups := UA, activeGroupIndex := st.activeGroupIndex,
        activeInstanceIndex := st.activeInstanceIndex } ([] : List Ev) c gbA kb
      (by simp [hcnb]) hUAn hgfc1 hUAkb
      (by rw [hgbA]; exact List.mem_append.mpr (Or.inr (List.mem_cons_self c [])))
      (by rw [heq1]; simp)
    set gbAR : TerminalGroup :=
      { gbA with
          terminalInstances := gbA.terminalInstances.erase c,
          activeInstanceIndexLocal :=
            if ((gbA.terminalInstances.erase c).length : Int) ≤ gbA.activeInstanceIndexLocal
            then ((gbA.terminalInstances.erase c).length : Int) - 1
            else gbA.activeInstanceIndexLocal } with hgbAR
    set UC : List TerminalGroup :=
      updateGroupAt (updateGroupAt UA gbA.gid (fun _ => gbAR)) gb.gid
        (fun h => { h with terminalInstances := h.terminalInstances ++ [c] }) with hUC
    have hgbARgid : gbAR.gid = gb.gid := by rw [hgbAR, hgbA]
    have hUCgid : UC.map TerminalGroup.gid = st.groups.map TerminalGroup.gid := by
      rw [hUC,
        map_gid_updateGroupAt _ gb.gid
          (fun h => { h with terminalInstances := h.terminalInstances ++ [c] })
          (fun g hg => hg),
        map_gid_updateGroupAt _ gbA.gid (fun _ => gbAR) (fun g hg => rfl), hUAgid]
    simp only [GState.groups_mk, GState.activeGroupIndex_mk,
      GState.activeInstanceIndex_mk] at hstepC
    have hUClen : UC.length = st.groups.length := by
      rw [hUC, length_updateGroupAt, length_updateGroupAt, hUAlen]
    set gbF : TerminalGroup :=
      { gbAR with terminalInstances := gbAR.terminalInstances ++ [c] } with hgbF
    have hUCkb : UC[kb]? = some gbF := by
      rw [hUC, updateGroupAt_getElem?, updateGroupAt_getElem?, hUAkb]
      simp [hgbF, hgbARgid]
    have hUCka : UC[ka]? = some gaR := by
      rw [hUC, updateGroupAt_getElem?, updateGroupAt_getElem?, hUAka]
      simp [hgaRgid, hgbAgid, hga_gb]
    have hUCother : ∀ (j : Nat) (y : TerminalGroup), st.groups[j]? = some y →
        j ≠ ka → j ≠ kb → UC[j]? = some y := by
      intro j y hj hjka hjkb
      rw [hUC, updateGroupAt_getElem?, updateGroupAt_getElem?,
        hUAother j y hj hjka hjkb]
      simp [hgid_at j y kb gb hj hkb hjkb, hgbAgid]
    have hgbFinst : gbF.terminalInstances = [b, c] := by
      rw [hgbF]
      show gbAR.terminalInstances ++ [c] = [b, c]
      rw [hgbAR]
      show gbA.terminalInstances.erase c ++ [c] = [b, c]
      rw [heq1]
      rfl
    have hgbFgid : gbF.gid = gb.gid := rfl
    have hW1 : ((((GState.mk UC st.activeGroupIndex st.activeInstanceIndex) : GState)).groups.map
          TerminalGroup.gid).Nodup := by
      show (UC.map TerminalGroup.gid).Nodup
      rw [hUCgid]
      exact hgidn
    have hW2 : ∃ g2 ∈ (((GState.mk UC st.activeGroupIndex st.activeInstanceIndex) : GState)).groups,
        g2.gid = gb.gid ∧ g2.terminalInstances = [b, c] :=
      ⟨gbF, List.getElem?_mem hUCkb, hgbFgid, hgbFinst⟩
    have hW3 : ∀ g' ∈ (((GState.mk UC st.activeGroupIndex st.activeInstanceIndex) : GState)).groups,
        g'.gid ≠ gb.gid →
        c ∉ g'.terminalInstances ∧ b ∉ g'.terminalInstances ∧ c ∉ g'.terminalInstances := by
      intro g' hg' hne
      obtain ⟨j, hjlt, hje⟩ := mem_to_pos UC g' hg'
      have hjlen : j < st.groups.length := by rw [← hUClen]; exact hjlt
      have hy0 : st.groups[j]? = some (st.groups[j]) := List.getElem?_eq_getElem hjlen
      by_cases hjka : j = ka
      · rw [hjka, hUCka] at hje
        have hg'eq : g' = gaR := ((Option.some.injEq _ _).mp hje).symm
        subst hg'eq
        have hcnot : c ∉ gaR.terminalInstances := by
          rw [hgaR]
          exact List.Nodup.not_mem_erase hgaNd
        have hbnot : b ∉ gaR.terminalInstances := by
          rw [hgaR]
          intro hm
          exact FLD kb ka gb ga hkb hka (fun h => hka_kb h.symm) b hbmem
            (List.mem_of_mem_erase hm)
        exact ⟨hcnot, hbnot, hcnot⟩
      · by_cases hjkb : j = kb
        · rw [hjkb, hUCkb] at hje
          have hg'eq : g' = gbF := ((Option.some.injEq _ _).mp hje).symm
          exact absurd (hg'eq ▸ hgbFgid) hne
        · rw [hUCother j (st.groups[j]) hy0 hjka hjkb] at hje
          have hg'eq : g' = st.groups[j] := ((Option.some.injEq _ _).mp hje).symm
          subst hg'eq
          have hcnot : c ∉ (st.groups[j]).terminalInstances :=
            FLD ka j ga (st.groups[j]) hka hy0 (fun h => hjka h.symm) c hcga
          have hbnot : b ∉ (st.groups[j]).terminalInstances :=
            FLD kb j gb (st.groups[j]) hkb hy0 (fun h => hjkb h.symm) b hbmem
          exact ⟨hcnot, hbnot, hcnot⟩
    have hW4 : ∀ g' ∈ (((GState.mk UC st.activeGroupIndex st.activeInstanceIndex) : GState)).groups,
        g'.gid ∈ st.groups.map TerminalGroup.gid := by
      intro g' hg'
      have : g'.gid ∈ UC.map TerminalGroup.gid :=
        List.mem_map_of_mem TerminalGroup.gid hg'
      rwa [hUCgid] at this
    have hfin := joinInstances_final_phase
      (GState.mk UC st.activeGroupIndex st.activeInstanceIndex)
      c b c gb.gid (st.groups.map TerminalGroup.gid) [b, c] hW1 hW2 hW3 hW4
      (by simp) (by intro x; simp; tauto)
    simp only [hstepC]
    obtain ⟨herr, hex, hact, hsub, hnotin, hlenF⟩ := hfin
    rcases hSA : setActiveInstance
      (GState.mk UC st.activeGroupIndex st.activeInstanceIndex) c with ⟨F1, FE, FErr⟩
    rw [hSA] at herr hex hact hsub hnotin hlenF
    simp only [] at herr
    subst herr
    dsimp only
    refine ⟨rfl, hex, hact, hsub, ?_, hnotin⟩
    rw [hlenF]
    show UC.length ≤ st.groups.length
    rw [hUClen]
  · -- the third instance differs from the first
    by_cases hgcga : gc.gid = ga.gid
    · -- c lives in the same group as a
      have hgcga2 : gc = ga := List.inj_on_of_nodup_map hgidn hgcm hgam hgcga
      have hcga : c ∈ ga.terminalInstances := hgcga2 ▸ hc
      have hcne : c ≠ a := hca
      have hcgaR : c ∈ gaR.terminalInstances := by
        rw [hgaR]
        show c ∈ ga.terminalInstances.erase a
        exact (List.mem_erase_of_ne hcne).mpr hcga
      have hgfc2 : getGroupForInstance
          (GState.mk UA st.activeGroupIndex st.activeInstanceIndex) c = some gaR := by
        apply getGroupForInstance_eq_of_unique _ c ka gaR hUAka hcgaR
        intro j y hjy hjka
        have hjlen : j < st.groups.length := by
          rw [← hUAlen]
          exact (List.getElem?_eq_some.mp hjy).1
        have hy0 : st.groups[j]? = some (st.groups[j]) := List.getElem?_eq_getElem hjlen
        by_cases hjkb : j = kb
        · rw [hjkb, hUAkb] at hjy
          have hy : y = gbA := ((Option.some.injEq _ _).mp hjy).symm
          rw [hy, hgbA]
          show c ∉ gb.terminalInstances ++ [a]
          intro hm
          rcases List.mem_append.mp hm with hm1 | hm2
          · exact FLD ka kb ga gb hka hkb hka_kb c hcga hm1
          · exact hcne (List.mem_singleton.mp hm2)
        · rw [hUAother j (st.groups[j]) hy0 hjka hjkb] at hjy
          have hy : y = st.groups[j] := ((Option.some.injEq _ _).mp hjy).symm
          rw [hy]
          exact FLD ka j ga (st.groups[j]) hka hy0 (fun h => hjka h.symm) c hcga
      by_cases hzero : gaR.terminalInstances.erase c = []
      · -- the group of a loses its last member: removal cascades
        have hstepC := joinMoveStep_cascade gb.gid (some b)
          (GState.mk UA st.activeGroupIndex st.activeInstanceIndex) ([] : List Ev) c gaR ka
          (by simp [hcnb]) hUAn hgfc2 hUAka hcgaR hzero
        simp only [GState.groups_mk, GState.activeGroupIndex_mk,
          GState.activeInstanceIndex_mk, addInstanceToGroup_eq] at hstepC
        set gaRZ : TerminalGroup :=
          { gaR with
              terminalInstances := gaR.terminalInstances.erase c,
              activeInstanceIndexLocal :=
                if ((gaR.terminalInstances.erase c).length : Int) ≤ gaR.activeInstanceIndexLocal
                then ((gaR.terminalInstances.erase c).length : Int) - 1
                else gaR.activeInstanceIndexLocal } with hgaRZ
        set V : List TerminalGroup := updateGroupAt UA gaR.gid (fun _ => gaRZ) with hV
        set stR : GState :=
          (removeGroup (GState.mk V st.activeGroupIndex st.activeInstanceIndex) gaRZ).1 with hstR
        set GF : List TerminalGroup :=
          updateGroupAt stR.groups gb.gid
            (fun g => { g with terminalInstances := g.terminalInstances ++ [c] }) with hGF
        have hVgid : V.map TerminalGroup.gid = st.groups.map TerminalGroup.gid := by
          rw [hV, map_gid_updateGroupAt _ gaR.gid (fun _ => gaRZ) (fun g hg => rfl), hUAgid]
        have hVn : (V.map TerminalGroup.gid).Nodup := by rw [hVgid]; exact hgidn
        have hVlen : V.length = st.groups.length := by
          rw [hV, length_updateGroupAt, hUAlen]
        have hVka : V[ka]? = some gaRZ := by
          rw [hV, updateGroupAt_getElem?, hUAka]
          simp
        have hVkb : V[kb]? = some gbA := by
          rw [hV, updateGroupAt_getElem?, hUAkb]
          simp [hgbAgid, hgaRgid, Ne.symm hga_gb]
        have hVother : ∀ (j : Nat) (y : TerminalGroup), st.groups[j]? = some y →
            j ≠ ka → j ≠ kb → V[j]? = some y := by
          intro j y hj hjka hjkb
          rw [hV, updateGroupAt_getElem?, hUAother j y hj hjka hjkb]
          simp [hgaRgid, hgid_at j y ka ga hj hka hjka]
        have hkalen : ka < st.groups.length := (List.getElem?_eq_some.mp hka).1
        have hgaRZnil : gaRZ.terminalInstances = [] := by
          rw [hgaRZ]
          show gaR.terminalInstances.erase c = []
          exact hzero
        have hidxV : indexOfGid V gaRZ.gid = (ka : Int) :=
          indexOfGid_of_getElem? V ka gaRZ hVn hVka
        have hgidW : gidInst stR.groups = (gidInst V).eraseIdx ka := by
          rw [hstR, gidInst_removeGroup]
          simp only [GState.groups_mk]
          rw [hidxV, if_neg (by omega)]
          have h7 : ((ka : Int)).toNat = ka := by omega
          rw [h7]
        have hmapW : stR.groups.map TerminalGroup.gid =
            (st.groups.map TerminalGroup.gid).eraseIdx ka := by
          rw [← gidInst_map_fst, hgidW, map_eraseIdx_comm, gidInst_map_fst, hVgid]
        have hWlen : stR.groups.length = st.groups.length - 1 := by
          have h8 : stR.groups.length = (gidInst stR.groups).length := by
            rw [gidInst, List.length_map]
          have h9 : (gidInst V).length = st.groups.length := by
            rw [gidInst, List.length_map, hVlen]
          rw [h8, hgidW, List.length_eraseIdx, h9, if_pos (by omega)]
        have hWkb : ∃ gw ∈ stR.groups, gw.gid = gb.gid ∧
            gw.terminalInstances = gbA.terminalInstances := by
          have hpos : (gidInst V)[kb]? = some (gbA.gid, gbA.terminalInstances) := by
            rw [gidInst, List.getElem?_map, hVkb]
            rfl
          have hmem9 : (gbA.gid, gbA.terminalInstances) ∈ (gidInst V).eraseIdx ka :=
            mem_eraseIdx_of_getElem?_ne _ kb ka _ hpos (fun h => hka_kb h.symm)
          rw [← hgidW] at hmem9
          obtain ⟨gw, hm, h1, h2⟩ := mem_of_gidInst_mem _ _ _ hmem9
          refine ⟨gw, hm, ?_, h2⟩
          rw [h1, hgbAgid]
        obtain ⟨gw, hmWkb, hgwgid, hgwinst⟩ := hWkb
        have hWsub : ∀ gx ∈ stR.groups, ∃ g2 ∈ V, g2.gid = gx.gid ∧
            g2.terminalInstances = gx.terminalInstances := by
          intro gx hm
          have h10 : (gx.gid, gx.terminalInstances) ∈ gidInst stR.groups :=
            gidInst_mem_of_mem _ _ hm
          rw [hgidW] at h10
          exact mem_of_gidInst_mem _ _ _ (List.mem_of_mem_eraseIdx h10)
        have hVchar : ∀ g2 ∈ V, g2 = gaRZ ∨ g2 = gbA ∨
            ∃ j, st.groups[j]? = some g2 ∧ j ≠ ka ∧ j ≠ kb := by
          intro g2 hm
          obtain ⟨j, hjlt, hje⟩ := mem_to_pos V g2 hm
          have hjlen : j < st.groups.length := by rw [← hVlen]; exact hjlt
          have hy0 : st.groups[j]? = some (st.groups[j]) := List.getElem?_eq_getElem hjlen
          by_cases hjka : j = ka
          · left
            rw [hjka, hVka] at hje
            exact ((Option.some.injEq _ _).mp hje).symm
          · by_cases hjkb : j = kb
            · right; left
              rw [hjkb, hVkb] at hje
              exact ((Option.some.injEq _ _).mp hje).symm
            · right; right
              refine ⟨j, ?_, hjka, hjkb⟩
              have h11 : st.groups[j] = g2 := by
                rw [hVother j (st.groups[j]) hy0 hjka hjkb] at hje
                exact (Option.some.injEq _ _).mp hje
              rw [← h11]
              exact hy0
        have hGFgid : GF.map TerminalGroup.gid =
            (st.groups.map TerminalGroup.gid).eraseIdx ka := by
          rw [hGF, map_gid_updateGroupAt _ gb.gid
            (fun g => { g with terminalInstances := g.terminalInstances ++ [c] })
            (fun g hg => hg), hmapW]
        have hGFlen : GF.length = st.groups.length - 1 := by
          rw [hGF, length_updateGroupAt, hWlen]
        have hW1 : (GF.map TerminalGroup.gid).Nodup := by
          rw [hGFgid]
          exact List.Nodup.eraseIdx ka hgidn
        have hW2mem : ({ gw with terminalInstances := gw.terminalInstances ++ [c] } :
            TerminalGroup) ∈ GF := by
          rw [hGF, updateGroupAt]
          apply List.mem_map.mpr
          refine ⟨gw, hmWkb, ?_⟩
          show (if gw.gid = gb.gid
            then { gw with terminalInstances := gw.terminalInstances ++ [c] }
            else gw) = { gw with terminalInstances := gw.terminalInstances ++ [c] }
          rw [if_pos hgwgid]
        have hW2 : ∃ g2 ∈ GF, g2.gid = gb.gid ∧ g2.terminalInstances = [b, a, c] := by
          refine ⟨{ gw with terminalInstances := gw.terminalInstances ++ [c] },
            hW2mem, ?_, ?_⟩
          · show gw.gid = gb.gid
            exact hgwgid
          · show gw.terminalInstances ++ [c] = [b, a, c]
            rw [hgwinst, hgbA]
            show (gb.terminalInstances ++ [a]) ++ [c] = [b, a, c]
            rw [hb]
            rfl
        have hW3 : ∀ g' ∈ GF, g'.gid ≠ gb.gid →
            a ∉ g'.terminalInstances ∧ b ∉ g'.terminalInstances ∧
              c ∉ g'.terminalInstances := by
          intro g' hg' hne
          rw [hGF, updateGroupAt] at hg'
          obtain ⟨gx, hmW, hgx⟩ := List.mem_map.mp hg'
          by_cases hcond : gx.gid = gb.gid
          · rw [if_pos hcond] at hgx
            refine absurd ?_ hne
            rw [← hgx]
            show gx.gid = gb.gid
            exact hcond
          · rw [if_neg hcond] at hgx
            rw [← hgx]
            obtain ⟨g2, hmV, hggid, hginst⟩ := hWsub gx hmW
            rw [← hginst]
            rcases hVchar g2 hmV with h1 | h2 | ⟨j, hj, hjka, hjkb⟩
            · rw [h1, hgaRZnil]
              simp
            · exfalso
              apply hcond
              rw [← hggid, h2, hgbAgid]
            · refine ⟨?_, ?_, ?_⟩
              · exact FLD ka j ga g2 hka hj (fun h => hjka h.symm) a ha
              · exact FLD kb j gb g2 hkb hj (fun h => hjkb h.symm) b hbmem
              · exact FLD ka j ga g2 hka hj (fun h => hjka h.symm) c hcga
        have hW4 : ∀ g' ∈ GF, g'.gid ∈ st.groups.map TerminalGroup.gid := by
          intro g' hg'
          have h12 : g'.gid ∈ GF.map TerminalGroup.gid :=
            List.mem_map_of_mem TerminalGroup.gid hg'
          rw [hGFgid] at h12
          exact List.mem_of_mem_eraseIdx h12
        have hfin := joinInstances_final_phase
          (GState.mk GF stR.activeGroupIndex stR.activeInstanceIndex)
          a b c gb.gid (st.groups.map TerminalGroup.gid) [b, a, c] hW1 hW2 hW3 hW4
          (by simp) (by intro x; simp; tauto)
        simp only [hstepC]
        obtain ⟨herr, hex, hact, hsub, hnotin, hlenF⟩ := hfin
        rcases hSA : setActiveInstance
          (GState.mk GF stR.activeGroupIndex stR.activeInstanceIndex) a with ⟨F1, FE, FErr⟩
        rw [hSA] at herr hex hact hsub hnotin hlenF
        simp only [] at herr
        subst herr
        dsimp only
        refine ⟨rfl, hex, hact, hsub, ?_, hnotin⟩
        rw [hlenF]
        show GF.length ≤ st.groups.length
        rw [hGFlen]
        omega
      · -- the group of a keeps another member: no cascade
        have hstepC := joinMoveStep_moves gb.gid (some b)
          (GState.mk UA st.activeGroupIndex st.activeInstanceIndex) ([] : List Ev) c gaR ka
          (by simp [hcnb]) hUAn hgfc2 hUAka hcgaR hzero
        set gaRR : TerminalGroup :=
          { gaR with
              terminalInstances := gaR.terminalInstances.erase c,
              activeInstanceIndexLocal :=
                if ((gaR.terminalInstances.erase c).length : Int) ≤ gaR.activeInstanceIndexLocal
                then ((gaR.terminalInstances.erase c).length : Int) - 1
                else gaR.activeInstanceIndexLocal } with hgaRR
        set UC2 : List TerminalGroup :=
          updateGroupAt (updateGroupAt UA gaR.gid (fun _ => gaRR)) gb.gid
            (fun h => { h with terminalInstances := h.terminalInstances ++ [c] }) with hUC2
        have hgaRRgid : gaRR.gid = ga.gid := by rw [hgaRR, hgaR]
        have hUC2gid : UC2.map TerminalGroup.gid = st.groups.map TerminalGroup.gid := by
          rw [hUC2,
            map_gid_updateGroupAt _ gb.gid
              (fun h => { h with terminalInstances := h.terminalInstances ++ [c] })
              (fun g hg => hg),
            map_gid_updateGroupAt _ gaR.gid (fun _ => gaRR) (fun g hg => rfl), hUAgid]
        simp only [GState.groups_mk, GState.activeGroupIndex_mk,
          GState.activeInstanceIndex_mk] at hstepC
        have hUC2len : UC2.length = st.groups.length := by
          rw [hUC2, length_updateGroupAt, length_updateGroupAt, hUAlen]
        set gbF2 : TerminalGroup :=
          { gbA with terminalInstances := gbA.terminalInstances ++ [c] } with hgbF2
        have hUC2kb : UC2[kb]? = some gbF2 := by
          rw [hUC2, updateGroupAt_getElem?, updateGroupAt_getElem?, hUAkb]
          simp [hgbF2, hgbAgid, hgaRgid, Ne.symm hga_gb]
        have hUC2ka : UC2[ka]? = some gaRR := by
          rw [hUC2, updateGroupAt_getElem?, updateGroupAt_getElem?, hUAka]
          simp [hgaRRgid, hga_gb]
        have hUC2other : ∀ (j : Nat) (y : TerminalGroup), st.groups[j]? = some y →
            j ≠ ka → j ≠ kb → UC2[j]? = some y := by
          intro j y hj hjka hjkb
          rw [hUC2, updateGroupAt_getElem?, updateGroupAt_getElem?,
            hUAother j y hj hjka hjkb]
          simp [hgaRgid, hgid_at j y ka ga hj hka hjka, hgid_at j y kb gb hj hkb hjkb]
        have hgbF2inst : gbF2.terminalInstances = [b, a, c] := by
          rw [hgbF2]
          show gbA.terminalInstances ++ [c] = [b, a, c]
          rw [hgbA]
          show (gb.terminalInstances ++ [a]) ++ [c] = [b, a, c]
          rw [hb]
          rfl
        have hgbF2gid : gbF2.gid = gb.gid := rfl
        have hW1 : (UC2.map TerminalGroup.gid).Nodup := by
          rw [hUC2gid]
          exact hgidn
        have hW2 : ∃ g2 ∈ UC2, g2.gid = gb.gid ∧ g2.terminalInstances = [b, a, c] :=
          ⟨gbF2, List.getElem?_mem hUC2kb, hgbF2gid, hgbF2inst⟩
        have hW3 : ∀ g' ∈ UC2, g'.gid ≠ gb.gid →
            a ∉ g'.terminalInstances ∧ b ∉ g'.terminalInstances ∧
              c ∉ g'.terminalInstances := by
          intro g' hg' hne
          obtain ⟨j, hjlt, hje⟩ := mem_to_pos UC2 g' hg'
          have hjlen : j < st.groups.length := by rw [← hUC2len]; exact hjlt
          have hy0 : st.groups[j]? = some (st.groups[j]) := List.getElem?_eq_getElem hjlen
          by_cases hjka : j = ka
          · rw [hjka, hUC2ka] at hje
            have hg'eq : g' = gaRR := ((Option.some.injEq _ _).mp hje).symm
            subst hg'eq
            refine ⟨?_, ?_, ?_⟩
            · rw [hgaRR]
              intro hm
              have hm2 : a ∈ gaR.terminalInstances := List.mem_of_mem_erase hm
              rw [hgaR] at hm2
              exact List.Nodup.not_mem_erase hgaNd hm2
            · rw [hgaRR]
              intro hm
              have hm2 : b ∈ gaR.terminalInstances := List.mem_of_mem_erase hm
              rw [hgaR] at hm2
              exact FLD kb ka gb ga hkb hka (fun h => hka_kb h.symm) b hbmem
                (List.mem_of_mem_erase hm2)
            · rw [hgaRR]
              have hnd2 : gaR.terminalInstances.Nodup := by
                rw [hgaR]
                show (ga.terminalInstances.erase a).Nodup
                exact hgaNd.erase a
              exact List.Nodup.not_mem_erase hnd2
          · by_cases hjkb : j = kb
            · rw [hjkb, hUC2kb] at hje
              have hg'eq : g' = gbF2 := ((Option.some.injEq _ _).mp hje).symm
              exact absurd (hg'eq ▸ hgbF2gid) hne
            · rw [hUC2other j (st.groups[j]) hy0 hjka hjkb] at hje
              have hg'eq : g' = st.groups[j] := ((Option.some.injEq _ _).mp hje).symm
              subst hg'eq
              refine ⟨?_, ?_, ?_⟩
              · exact FLD ka j ga (st.groups[j]) hka hy0 (fun h => hjka h.symm) a ha
              · exact FLD kb j gb (st.groups[j]) hkb hy0 (fun h => hjkb h.symm) b hbmem
              · exact FLD ka j ga (st.groups[j]) hka hy0 (fun h => hjka h.symm) c hcga
        have hW4 : ∀ g' ∈ UC2, g'.gid ∈ st.groups.map TerminalGroup.gid := by
          intro g' hg'
          have h5 : g'.gid ∈ UC2.map TerminalGroup.gid :=
            List.mem_map_of_mem TerminalGroup.gid hg'
          rwa [hUC2gid] at h5
        have hfin := joinInstances_final_phase
          (GState.mk UC2 st.activeGroupIndex st.activeInstanceIndex)
          a b c gb.gid (st.groups.map TerminalGroup.gid) [b, a, c] hW1 hW2 hW3 hW4
          (by simp) (by intro x; simp; tauto)
        simp only [hstepC]
        obtain ⟨herr, hex, hact, hsub, hnotin, hlenF⟩ := hfin
        rcases hSA : setActiveInstance
          (GState.mk UC2 st.activeGroupIndex st.activeInstanceIndex) a with ⟨F1, FE, FErr⟩
        rw [hSA] at herr hex hact hsub hnotin hlenF
        simp only [] at herr
        subst herr
        dsimp only
        refine ⟨rfl, hex, hact, hsub, ?_, hnotin⟩
        rw [hlenF]
        show UC2.length ≤ st.groups.length
        rw [hUC2len]
    · -- c lives in a third group, distinct from the groups of a and b
      have hkc_ka3 : kc ≠ ka := by
        intro h
        rw [h, hka] at hkc
        have h6 : ga = gc := (Option.some.injEq _ _).mp hkc
        exact hgcga (by rw [h6])
      have hcnotga : c ∉ ga.terminalInstances :=
        FLD kc ka gc ga hkc hka hkc_ka3 c hc
      have hUAkc : UA[kc]? = some gc := hUAother kc gc hkc hkc_ka3 hkc_kb
      have hgfc3 : getGroupForInstance
          (GState.mk UA st.activeGroupIndex st.activeInstanceIndex) c = some gc := by
        apply getGroupForInstance_eq_of_unique _ c kc gc hUAkc hc
        intro j y hjy hjkc
        have hjlen : j < st.groups.length := by
          rw [← hUAlen]
          exact (List.getElem?_eq_some.mp hjy).1
        have hy0 : st.groups[j]? = some (st.groups[j]) := List.getElem?_eq_getElem hjlen
        by_cases hjka : j = ka
        · rw [hjka, hUAka] at hjy
          have hy : y = gaR := ((Option.some.injEq _ _).mp hjy).symm
          rw [hy, hgaR]
          show c ∉ ga.terminalInstances.erase a
          intro hm
          exact hcnotga (List.mem_of_mem_erase hm)
        · by_cases hjkb : j = kb
          · rw [hjkb, hUAkb] at hjy
            have hy : y = gbA := ((Option.some.injEq _ _).mp hjy).symm
            rw [hy, hgbA]
            show c ∉ gb.terminalInstances ++ [a]
            intro hm
            rcases List.mem_append.mp hm with hm1 | hm2
            · exact FLD kc kb gc gb hkc hkb hkc_kb c hc hm1
            · exact hca (List.mem_singleton.mp hm2)
          · rw [hUAother j (st.groups[j]) hy0 hjka hjkb] at hjy
            have hy : y = st.groups[j] := ((Option.some.injEq _ _).mp hjy).symm
            rw [hy]
            exact FLD kc j gc (st.groups[j]) hkc hy0 (fun h => hjkc h.symm) c hc
      have herase_c_ne3 : gc.terminalInstances.erase c ≠ [] := by
        intro hcontra
        have hlen := List.length_erase_of_mem hc
        rw [hcontra] at hlen
        simp at hlen
        omega
      have hstepC := joinMoveStep_moves gb.gid (some b)
        (GState.mk UA st.activeGroupIndex st.activeInstanceIndex) ([] : List Ev) c gc kc
        (by simp [hcnb]) hUAn hgfc3 hUAkc hc herase_c_ne3
      set gcR : TerminalGroup :=
        { gc with
            terminalInstances := gc.terminalInstances.erase c,
            activeInstanceIndexLocal :=
              if ((gc.terminalInstances.erase c).length : Int) ≤ gc.activeInstanceIndexLocal
              then ((gc.terminalInstances.erase c).length : Int) - 1
              else gc.activeInstanceIndexLocal } with hgcR
      set UC3 : List TerminalGroup :=
        updateGroupAt (updateGroupAt UA gc.gid (fun _ => gcR)) gb.gid
          (fun h => { h with terminalInstances := h.terminalInstances ++ [c] }) with hUC3
      have hgcRgid : gcR.gid = gc.gid := by rw [hgcR]
      have hUC3gid : UC3.map TerminalGroup.gid = st.groups.map TerminalGroup.gid := by
        rw [hUC3,
          map_gid_updateGroupAt _ gb.gid
            (fun h => { h with terminalInstances := h.terminalInstances ++ [c] })
            (fun g hg => hg),
          map_gid_updateGroupAt _ gc.gid (fun _ => gcR) (fun g hg => rfl), hUAgid]
      simp only [GState.groups_mk, GState.activeGroupIndex_mk,
        GState.activeInstanceIndex_mk] at hstepC
      have hUC3len : UC3.length = st.groups.length := by
        rw [hUC3, length_updateGroupAt, length_updateGroupAt, hUAlen]
      set gbF3 : TerminalGroup :=
        { gbA with terminalInstances := gbA.terminalInstances ++ [c] } with hgbF3
      have hUC3kb : UC3[kb]? = some gbF3 := by
        rw [hUC3, updateGroupAt_getElem?, updateGroupAt_getElem?, hUAkb]
        simp [hgbF3, hgbAgid, Ne.symm hgc_gb]
      have hUC3ka : UC3[ka]? = some gaR := by
        rw [hUC3, updateGroupAt_getElem?, updateGroupAt_getElem?, hUAka]
        simp [hgaRgid, Ne.symm hgcga, hga_gb]
      have hUC3kc : UC3[kc]? = some gcR := by
        rw [hUC3, updateGroupAt_getElem?, updateGroupAt_getElem?, hUAkc]
        simp [hgcRgid, hgc_gb]
      have hUC3other : ∀ (j : Nat) (y : TerminalGroup), st.groups[j]? = some y →
          j ≠ ka → j ≠ kb → j ≠ kc → UC3[j]? = some y := by
        intro j y hj hjka hjkb hjkc
        rw [hUC3, updateGroupAt_getElem?, updateGroupAt_getElem?,
          hUAother j y hj hjka hjkb]
        simp [hgid_at j y kc gc hj hkc hjkc, hgid_at j y kb gb hj hkb hjkb]
      have hgbF3inst : gbF3.terminalInstances = [b, a, c] := by
        rw [hgbF3]
        show gbA.terminalInstances ++ [c] = [b, a, c]
        rw [hgbA]
        show (gb.terminalInstances ++ [a]) ++ [c] = [b, a, c]
        rw [hb]
        rfl
      have hgbF3gid : gbF3.gid = gb.gid := rfl
      have hW1 : (UC3.map TerminalGroup.gid).Nodup := by
        rw [hUC3gid]
        exact hgidn
      have hW2 : ∃ g2 ∈ UC3, g2.gid = gb.gid ∧ g2.terminalInstances = [b, a, c] :=
        ⟨gbF3, List.getElem?_mem hUC3kb, hgbF3gid, hgbF3inst⟩
      have hW3 : ∀ g' ∈ UC3, g'.gid ≠ gb.gid →
          a ∉ g'.terminalInstances ∧ b ∉ g'.terminalInstances ∧
            c ∉ g'.terminalInstances := by
        intro g' hg' hne
        obtain ⟨j, hjlt, hje⟩ := mem_to_pos UC3 g' hg'
        have hjlen : j < st.groups.length := by rw [← hUC3len]; exact hjlt
        have hy0 : st.groups[j]? = some (st.groups[j]) := List.getElem?_eq_getElem hjlen
        by_cases hjka : j = ka
        · rw [hjka, hUC3ka] at hje
          have hg'eq : g' = gaR := ((Option.some.injEq _ _).mp hje).symm
          subst hg'eq
          refine ⟨?_, ?_, ?_⟩
          · rw [hgaR]
            exact List.Nodup.not_mem_erase hgaNd
          · rw [hgaR]
            intro hm
            exact FLD kb ka gb ga hkb hka (fun h => hka_kb h.symm) b hbmem
              (List.mem_of_mem_erase hm)
          · rw [hgaR]
            intro hm
            exact hcnotga (List.mem_of_mem_erase hm)
        · by_cases hjkb : j = kb
          · rw [hjkb, hUC3kb] at hje
            have hg'eq : g' = gbF3 := ((Option.some.injEq _ _).mp hje).symm
            exact absurd (hg'eq ▸ hgbF3gid) hne
          · by_cases hjkc : j = kc
            · rw [hjkc, hUC3kc] at hje
              have hg'eq : g' = gcR := ((Option.some.injEq _ _).mp hje).symm
              subst hg'eq
              refine ⟨?_, ?_, ?_⟩
              · rw [hgcR]
                intro hm
                exact FLD ka kc ga gc hka hkc (fun h => hkc_ka3 h.symm) a ha
                  (List.mem_of_mem_erase hm)
              · rw [hgcR]
                intro hm
                exact FLD kb kc gb gc hkb hkc (fun h => hkc_kb h.symm) b hbmem
                  (List.mem_of_mem_erase hm)
              · rw [hgcR]
                exact List.Nodup.not_mem_erase hgcNd
            · rw [hUC3other j (st.groups[j]) hy0 hjka hjkb hjkc] at hje
              have hg'eq : g' = st.groups[j] := ((Option.some.injEq _ _).mp hje).symm
              subst hg'eq
              refine ⟨?_, ?_, ?_⟩
              · exact FLD ka j ga (st.groups[j]) hka hy0 (fun h => hjka h.symm) a ha
              · exact FLD kb j gb (st.groups[j]) hkb hy0 (fun h => hjkb h.symm) b hbmem
              · exact FLD kc j gc (st.groups[j]) hkc hy0 (fun h => hjkc h.symm) c hc
      have hW4 : ∀ g' ∈ UC3, g'.gid ∈ st.groups.map TerminalGroup.gid := by
        intro g' hg'
        have h5 : g'.gid ∈ UC3.map TerminalGroup.gid :=
          List.mem_map_of_mem TerminalGroup.gid hg'
        rwa [hUC3gid] at h5
      have hfin := joinInstances_final_phase
        (GState.mk UC3 st.activeGroupIndex st.activeInstanceIndex)
        a b c gb.gid (st.groups.map TerminalGroup.gid) [b, a, c] hW1 hW2 hW3 hW4
        (by simp) (by intro x; simp; tauto)
      simp only [hstepC]
      obtain ⟨herr, hex, hact, hsub, hnotin, hlenF⟩ := hfin
      rcases hSA : setActiveInstance
        (GState.mk UC3 st.activeGroupIndex st.activeInstanceIndex) a with ⟨F1, FE, FErr⟩
      rw [hSA] at herr hex hact hsub hnotin hlenF
      simp only [] at herr
      subst herr
      dsimp only
      refine ⟨rfl, hex, hact, hsub, ?_, hnotin⟩
      rw [hlenF]
      show UC3.length ≤ st.groups.length
      rw [hUC3len]


/-- C4 witness: merging `[10, 20, 30]` where 20 is alone in its group and
10, 30 sit in two-member groups succeeds and makes 10 active. -/
theorem joinInstances_merges_into_sole_group_witness :
    (joinInstances
      { groups := [{ gid := 0, terminalInstances := [10, 11],
                     activeInstanceIndexLocal := 0, visible := true },
                   { gid := 1, terminalInstances := [20],
                     activeInstanceIndexLocal := 0, visible := true },
                   { gid := 2, terminalInstances := [30, 31],
                     activeInstanceIndexLocal := 0, visible := true }],
        activeGroupIndex := 0, activeInstanceIndex := 0 } 99 [10, 20, 30]).2.2 = none ∧
    (joinInstances
      { groups := [{ gid := 0, terminalInstances := [10, 11],
                     activeInstanceIndexLocal := 0, visible := true },
                   { gid := 1, terminalInstances := [20],
                     activeInstanceIndexLocal := 0, visible := true },
                   { gid := 2, terminalInstances := [30, 31],
                     activeInstanceIndexLocal := 0, visible := true }],
        activeGroupIndex := 0, activeInstanceIndex := 0 } 99
          [10, 20, 30]).1.activeInstance = some 10 := by
  have h := joinInstances_merges_into_sole_group
    { groups := [{ gid := 0, terminalInstances := [10, 11],
                   activeInstanceIndexLocal := 0, visible := true },
                 { gid := 1, terminalInstances := [20],
                   activeInstanceIndexLocal := 0, visible := true },
                 { gid := 2, terminalInstances := [30, 31],
                   activeInstanceIndexLocal := 0, visible := true }],
      activeGroupIndex := 0, activeInstanceIndex := 0 } 99 10 20 30
    { gid := 0, terminalInstances := [10, 11],
      activeInstanceIndexLocal := 0, visible := true }
    { gid := 1, terminalInstances := [20],
      activeInstanceIndexLocal := 0, visible := true }
    { gid := 2, terminalInstances := [30, 31],
      activeInstanceIndexLocal := 0, visible := true }
    0 1 2 (by decide) (by decide) (by decide) (by decide) (by decide)
    (by decide) (by decide) (by decide) (by decide) (by decide)
  exact ⟨h.1, h.2.2.1⟩
